import Mathlib

set_option autoImplicit false

/-!
Verification of the import resolver of `v-next/resolver/src/index.ts`
(together with its helpers in `resolve.ts`; the remapping surface parser of
`remappings.ts` is not part of the sources and is modelled from the spec
where needed).

The embedding is shallow: the resolver's async methods become pure functions
from an explicit filesystem oracle (`Fs`) and an explicit mutable state
(`ResolverState`) to a result paired with the successor state.  All string
manipulation is re-implemented with structural recursion over `List Char`
so that every definition evaluates inside the kernel.
-/
/-! ### Character-list string utilities

These mirror the JavaScript string primitives used by the source
(`startsWith`, `endsWith`, `includes`, `indexOf`, `substring`). -/
/-- Predicate `listIsPref p l` holds when `p` is a literal prefix of `l`. -/
def listIsPref : List Char → List Char → Bool
  | [], _ => true
  | _ :: _, [] => false
  | a :: as, b :: bs => a = b && listIsPref as bs

/-- JavaScript `s.startsWith(p)`. -/
def strStartsWith (s p : String) : Bool :=
  listIsPref p.toList s.toList

/-- JavaScript `s.endsWith(p)`. -/
def strEndsWith (s p : String) : Bool :=
  listIsPref p.toList.reverse s.toList.reverse

/-- Whether `pat` occurs as a contiguous sublist of the second argument. -/
def listContainsSub (pat : List Char) : List Char → Bool
  | [] => listIsPref pat []
  | c :: rest => listIsPref pat (c :: rest) || listContainsSub pat rest

/-- JavaScript `s.includes(pat)`. -/
def strContainsSub (s pat : String) : Bool :=
  listContainsSub pat.toList s.toList

/-- Whether the character `c` occurs in `s` (i.e. `s.indexOf(c) !== -1`). -/
def strContainsChar (s : String) (c : Char) : Bool :=
  s.toList.contains c

/-- The segment of `s` before the first occurrence of `c`
(JavaScript `s.substring(0, s.indexOf(c))`). -/
def takeUntilChar (s : String) (c : Char) : String :=
  String.mk (s.toList.takeWhile (fun x => x ≠ c))

/-- Drop the first `n` characters (JavaScript `s.substring(n)`). -/
def strDrop (s : String) (n : Nat) : String :=
  String.mk (s.toList.drop n)

/-- Character count of `s`. -/
def strLen (s : String) : Nat :=
  s.toList.length

/-- Split a character list at every occurrence of `c`. -/
def splitCharList (c : Char) : List Char → List (List Char)
  | [] => [[]]
  | x :: xs =>
    let r := splitCharList c xs
    if x = c then
      [] :: r
    else
      match r with
      | h :: t => (x :: h) :: t
      | [] => [[x]]

/-- Split a string at the first occurrence of `c`, returning the parts
before and after it. -/
def splitFirst (c : Char) : List Char → Option (List Char × List Char)
  | [] => none
  | x :: xs =>
    if x = c then
      some ([], xs)
    else
      (splitFirst c xs).map (fun p => (x :: p.1, p.2))

/-- Rightmost index at which `c` occurs in the list. -/
def lastIdxOf (c : Char) : List Char → Option Nat
  | [] => none
  | x :: xs =>
    match lastIdxOf c xs with
    | some j => some (j + 1)
    | none => if x = c then some 0 else none

/-! ### POSIX path arithmetic (`node:path` on forward-slash strings) -/
/-- Split a path into its `/`-separated segments. -/
def splitPath (s : String) : List String :=
  (splitCharList '/' s.toList).map String.mk

/-- Join segments back with `/`. -/
def joinSegs : List String → String
  | [] => ""
  | [x] => x
  | x :: xs => x ++ "/" ++ joinSegs xs

/-- Normalization stack step for path segments: drops empty and `.`
segments, resolves `..` against the accumulated (reversed) stack; for an
absolute path a `..` at the root is dropped. -/
def normAcc (isAbs : Bool) : List String → List String → List String
  | acc, [] => acc
  | acc, seg :: rest =>
    if seg = "" || seg = "." then
      normAcc isAbs acc rest
    else if seg = ".." then
      match acc with
      | top :: accRest =>
        if top = ".." then normAcc isAbs (".." :: top :: accRest) rest
        else normAcc isAbs accRest rest
      | [] => if isAbs then normAcc isAbs [] rest else normAcc isAbs [".."] rest
    else
      normAcc isAbs (seg :: acc) rest

/-- Normalized segment list of a path. -/
def normalizeSegments (isAbs : Bool) (segs : List String) : List String :=
  (normAcc isAbs [] segs).reverse

/-- Mirrors `path.posix.normalize`: collapses `.`/`..`/empty segments, keeps a
trailing slash, returns `.` for an empty relative result. -/
def pathNormalize (p : String) : String :=
  let isAbs := strStartsWith p "/"
  let hasTrail := strEndsWith p "/" && decide (1 < strLen p)
  let segs := normalizeSegments isAbs (splitPath p)
  let core := joinSegs segs
  if core = "" then
    if isAbs then "/" else if hasTrail then "./" else "."
  else
    let base := if isAbs then "/" ++ core else core
    if hasTrail then base ++ "/" else base

/-- Mirrors `path.posix.join(a, b)`: concatenate the non-empty parts with `/` and
normalize. -/
def pathJoin (a b : String) : String :=
  let joined := if a = "" then b else if b = "" then a else a ++ "/" ++ b
  if joined = "" then "." else pathNormalize joined

/-- Mirrors `path.posix.dirname`. -/
def dirname (p : String) : String :=
  match p.toList with
  | [] => "."
  | c0 :: rest =>
    let hasRoot := c0 = '/'
    let full := c0 :: rest
    let t := (full.reverse.dropWhile (fun c => c = '/')).reverse
    match lastIdxOf '/' (t.drop 1) with
    | none => if hasRoot then "/" else "."
    | some j =>
      let e := j + 1
      if hasRoot && e = 1 then "//" else String.mk (full.take e)

/-- Longest-common-prefix removal on two segment lists. -/
def dropCommon : List String → List String → List String × List String
  | a :: as, b :: bs =>
    if a = b then dropCommon as bs else (a :: as, b :: bs)
  | as, bs => (as, bs)

/-- Mirrors `path.posix.relative(fromP, toP)` for two paths of the same kind
(both absolute or both relative); the relative case assumes neither path
escapes the implicit working directory, which holds for every call site of
the resolver. -/
def pathRelative (fromP toP : String) : String :=
  let f := normalizeSegments (strStartsWith fromP "/") (splitPath fromP)
  let t := normalizeSegments (strStartsWith toP "/") (splitPath toP)
  let p := dropCommon f t
  joinSegs (p.1.map (fun _ => "..") ++ p.2)

/-! ### Association lists (insertion-ordered maps, as JavaScript `Map`) -/
/-- Lookup in an insertion-ordered association list. -/
def getA {κ α : Type} [DecidableEq κ] : List (κ × α) → κ → Option α
  | [], _ => none
  | (k', v) :: rest, k => if k' = k then some v else getA rest k

/-- Update-or-append in an insertion-ordered association list; an existing
key keeps its position, like `Map.prototype.set`. -/
def setA {κ α : Type} [DecidableEq κ] : List (κ × α) → κ → α → List (κ × α)
  | [], k, v => [(k, v)]
  | (k', v') :: rest, k, v =>
    if k' = k then (k, v) :: rest else (k', v') :: setA rest k v

/-! ### Data model (`index.ts` lines 29–90) -/
/-- Structure `NpmPackage` (`index.ts` line 42). -/
structure NpmPackage where
  name : String
  version : String
  rootPath : String
  rootSourceName : String
deriving DecidableEq

/-- Variant `ResolvedFile` (`index.ts` line 57): a project file or an npm package
file. -/
inductive ResolvedFile where
  | projectFile (sourceName path content : String)
  | npmPackageFile (sourceName path content : String) (pkg : NpmPackage)
deriving DecidableEq

/-- The `sourceName` field of either variant. -/
def ResolvedFile.sourceName : ResolvedFile → String
  | .projectFile sn _ _ => sn
  | .npmPackageFile sn _ _ _ => sn

/-- The `path` field of either variant. -/
def ResolvedFile.path : ResolvedFile → String
  | .projectFile _ p _ => p
  | .npmPackageFile _ p _ _ => p

/-- The `(context, prefix, target)` triple of `remappings.ts` (`Remapping`).
The middle field is called `pfx` in this development. -/
structure Remapping where
  context : String
  pfx : String
  target : String
deriving DecidableEq

/-- Structure `UserRemapping` (`index.ts` line 59). -/
structure UserRemapping where
  rawFormat : String
  context : String
  pfx : String
  target : String
  targetNpmPackage : Option NpmPackage := none
deriving DecidableEq

/-- A dependency-map value: the project sentinel
(`PROJECT_ROOT_SOURCE_NAME_SENTINEL`) or an `NpmPackage`. -/
inductive NpmDependency where
  | projectSentinel
  | pkg (p : NpmPackage)
deriving DecidableEq

/-- The relevant fields of a parsed `package.json`. -/
structure PackageJson where
  name : String
  version : String
deriving DecidableEq

/-- Result of `#parseNpmDirectImport`. -/
structure NpmParsedImport where
  package : String
  path : String
deriving DecidableEq

/-- Result of `parseNpmRemappingTarget`. -/
structure NpmTargetParse where
  packageName : String
  packageVersion : String
deriving DecidableEq

/-- Resolver errors.  The source throws `Error`s with formatted messages;
here each throw site gets its own constructor carrying the data that the
message interpolates. -/
inductive ResolverError where
  | notWithinProject (absolutePath : String)
  | projectFileMissing (absolutePath : String)
  | invalidCasingProjectFile (absolutePath correctPath : String)
  | importOutsidePackage (importPath fromPath : String)
  | importOutsideProject (importPath fromPath : String)
  | remapNotLocal (rawFormat importPath remapped : String)
  | invalidNpmImport (directImport : String)
  | packageNotInstalledProject (importPath pkg : String)
  | packageNotInstalledFrom (importPath pkg fromName fromVersion : String)
  | importNotFound (importPath fromPath : String)
  | incorrectCasing (importPath fromPath correct : String)
  | readError (path : String)
  | jsonReadError (path : String)
  | invariantViolation
  | invalidRemappingFormat (raw : String)
  | invalidRemappingContext (raw : String)
  | invalidNpmTarget (raw : String)
  | remappingPackageNotInstalled (pkg : String)
  | monorepoVersionMismatch (pkg : String)
  | remapIntoProject (pkg : String)
  | packageVersionMismatch (pkg : String)
deriving DecidableEq

/-- Immutable per-resolver data: the constructor-supplied project root and
validated user remappings (`readonly` fields of `ResolverImplementation`).
The working directory only affects error-message formatting and is not
modelled. -/
structure ResolverConfig where
  projectRoot : String
  userRemappings : List UserRemapping
deriving DecidableEq

/-- Mutable per-resolver data: `#cacheBySourceName` and `#dependencyMaps`.
The outer dependency-map key `none` is the project-root sentinel. -/
structure ResolverState where
  cache : List (String × ResolvedFile)
  depMaps : List (Option String × List (String × NpmDependency))
deriving DecidableEq

/-- State set up by the private constructor (`index.ts` line 120): empty
cache, and a dependency map seeded with an empty entry for the sentinel. -/
def initialState : ResolverState :=
  { cache := [], depMaps := [(none, [])] }

/-- The filesystem / module-lookup oracle (the external collaborators of
§6 of the spec): existence, true-case lookup, UTF-8 read, JSON read, and
the node-style `resolve` of `resolve.ts`. -/
structure Fs where
  existsF : String → Bool
  trueCase : String → String → Option String
  readUtf8 : String → Option String
  readJson : String → Option PackageJson
  resolveModule : String → String → Option String

/-! ### Package-name and version parsers (`index.ts` lines 837–958) -/
/-- Character class `[a-z0-9-~._]` (scope body and name tail of the npm
regexes). -/
def isScopeBodyChar (c : Char) : Bool :=
  c.isLower || c.isDigit || c = '-' || c = '~' || c = '.' || c = '_'

/-- Character class `[a-z0-9-~]` (first character of a bare package name). -/
def isNameStartChar (c : Char) : Bool :=
  c.isLower || c.isDigit || c = '-' || c = '~'

/-- JavaScript-regex line terminators, which `.` does not match. -/
def isLineTerminator (c : Char) : Bool :=
  c = '\n' || c = '\r' || c.toNat = 0x2028 || c.toNat = 0x2029

/-- Parse `[a-z0-9-~][a-z0-9-~._]*` at the head of the list, returning the
matched name and the rest. -/
def parseBareName (cs : List Char) : Option (List Char × List Char) :=
  match cs with
  | [] => none
  | c :: rest =>
    if isNameStartChar c then
      some (c :: rest.takeWhile isScopeBodyChar, rest.dropWhile isScopeBodyChar)
    else
      none

/-- Parse `(?:@[a-z0-9-~._]+\/)?[a-z0-9-~][a-z0-9-~._]*` at the head of the
list (the package group shared by `#parseNpmDirectImport` and
`parseNpmRemappingTarget`), returning the matched package and the rest.
Since the character classes exclude `/` and `@`, the regex's greedy
matching admits no backtracking beyond the failure cases returned here. -/
def parsePkgName (cs : List Char) : Option (List Char × List Char) :=
  match cs with
  | '@' :: rest =>
    let body := rest.takeWhile isScopeBodyChar
    if body.isEmpty then
      none
    else
      match rest.dropWhile isScopeBodyChar with
      | '/' :: rest2 =>
        match parseBareName rest2 with
        | some (name, rest3) => some ('@' :: (body ++ '/' :: name), rest3)
        | none => none
      | _ => none
  | _ => parseBareName cs

/-- Mirrors `#parseNpmDirectImport` (`index.ts` line 837): match the direct import
against `^(?<package>(?:@[a-z0-9-~._]+\/)?[a-z0-9-~][a-z0-9-~._]*)\/(?<path>.*)$`.
The trailing `.*` matches any characters except line terminators. -/
def parseNpmDirectImport (directImport : String) : Option NpmParsedImport :=
  match parsePkgName directImport.toList with
  | none => none
  | some (pkg, rest) =>
    match rest with
    | '/' :: pathChars =>
      if pathChars.any isLineTerminator then
        none
      else
        some { package := String.mk pkg, path := String.mk pathChars }
    | _ => none

/-- Parse `local|\d+\.\d+\.\d+` followed by `/`, returning the version.
Mirrors the regex alternation: `local` succeeds only when followed by `/`,
and the numeric branch cannot apply to an input starting with `l`. -/
def parseVersionThenSlash (cs : List Char) : Option (List Char) :=
  match cs with
  | 'l' :: 'o' :: 'c' :: 'a' :: 'l' :: '/' :: _ => some ['l', 'o', 'c', 'a', 'l']
  | _ =>
    let d1 := cs.takeWhile Char.isDigit
    let r1 := cs.dropWhile Char.isDigit
    if d1.isEmpty then none
    else
      match r1 with
      | '.' :: cs2 =>
        let d2 := cs2.takeWhile Char.isDigit
        let r2 := cs2.dropWhile Char.isDigit
        if d2.isEmpty then none
        else
          match r2 with
          | '.' :: cs3 =>
            let d3 := cs3.takeWhile Char.isDigit
            let r3 := cs3.dropWhile Char.isDigit
            if d3.isEmpty then none
            else
              match r3 with
              | '/' :: _ => some (d1 ++ '.' :: d2 ++ '.' :: d3)
              | _ => none
          | _ => none
      | _ => none

/-- Mirrors `parseNpmRemappingTarget` (`index.ts` line 934): match the target
against `^npm\/(?<package>(?:@[a-z0-9-~._]+\/)?[a-z0-9-~][a-z0-9-~._]*)@(?<version>local|\d+\.\d+\.\d+)\/`. -/
def parseNpmRemappingTarget (remappingTarget : String) : Option NpmTargetParse :=
  match remappingTarget.toList with
  | 'n' :: 'p' :: 'm' :: '/' :: rest =>
    match parsePkgName rest with
    | some (pkg, '@' :: rest2) =>
      match parseVersionThenSlash rest2 with
      | some ver => some { packageName := String.mk pkg, packageVersion := String.mk ver }
      | none => none
    | _ => none
  | _ => none

/-- Mirrors `npmPackageToRootSourceName` (`index.ts` line 960). -/
def npmPackageToRootSourceName (name version : String) : String :=
  "npm/" ++ name ++ "@" ++ version ++ "/"

/-- Mirrors `isPackageJsonFromMonorepo` (`index.ts` line 964). -/
def isPackageJsonFromMonorepo (packageJsonPath projectRoot : String) : Bool :=
  !(strContainsSub packageJsonPath "node_modules") &&
    !(strStartsWith packageJsonPath projectRoot)

/-- Mirrors `isPackageJsonFromProject` (`index.ts` line 974). -/
def isPackageJsonFromProject (packageJsonPath projectRoot : String) : Bool :=
  !(strContainsSub packageJsonPath "node_modules") &&
    strStartsWith packageJsonPath projectRoot

/-- Mirrors `isPackageJsonFromNpmPackage` (`index.ts` line 984). -/
def isPackageJsonFromNpmPackage (packageJsonPath : String) : Bool :=
  strContainsSub packageJsonPath "node_modules"

/-! ### Remapping surface operations

`remappings.ts` is not among the sources; its three functions are modelled
from the spec (§4.B surface grammar, §4.C selector). -/
/-- Modelled from the spec: `parseRemappingString` of the missing
`remappings.ts`.  Surface grammar `remapping := context ':' prefix '='
target` with optional `context`; the split uses the first `=` and, on its
left-hand side, the first `:`. -/
def parseRemappingString (s : String) : Option Remapping :=
  match splitFirst '=' s.toList with
  | none => none
  | some (lhs, target) =>
    match splitFirst ':' lhs with
    | none => some { context := "", pfx := String.mk lhs, target := String.mk target }
    | some (ctx, p) =>
      some { context := String.mk ctx, pfx := String.mk p, target := String.mk target }

/-- Modelled from the spec: `selectBestRemapping` of the missing
`remappings.ts`.  Choose the remapping whose context is a prefix of the
  importing file's source name and whose prefix is a prefix of the direct
  import, preferring a longer context, then a longer prefix, then the
earliest declaration. -/
def selectBestRemapping (contextSourceName directImport : String)
    (remappings : List UserRemapping) : Option UserRemapping :=
  remappings.foldl
    (fun best r =>
      if strStartsWith contextSourceName r.context &&
          strStartsWith directImport r.pfx then
        match best with
        | none => some r
        | some b =>
          if strLen b.context < strLen r.context ||
              (strLen r.context = strLen b.context && strLen b.pfx < strLen r.pfx) then
            some r
          else
            some b
      else
        best)
    none

/-- Modelled from the spec: `applyValidRemapping` of the missing
`remappings.ts`.  Substitutes the remapping's prefix with its target in the
direct import. -/
def applyValidRemapping (directImport : String) (r : UserRemapping) : String :=
  r.target ++ strDrop directImport (strLen r.pfx)

/-! ### Shared validation and helpers of the engine -/
/-- The type of a resolution step: the thrown error or the resolved file,
together with the resolver state after the call (mutations made before a
throw survive, as they do on the TypeScript class). -/
def ResolveResult : Type := Except ResolverError ResolvedFile × ResolverState

/-- Mirrors `#isDirectImportLocal` (`index.ts` line 753). -/
def isDirectImportLocal (fs : Fs) (projectOrPackageRoot directImport : String) : Bool :=
  if directImport = "hardhat/console.sol" then
    false
  else if !(strContainsChar directImport '/') then
    true
  else
    fs.existsF (pathJoin projectOrPackageRoot (takeUntilChar directImport '/'))

/-- Mirrors `#validateExistanceAndCasingOfImport` (`index.ts` line 788): `none`
means the validation passed, `some e` is the error thrown. -/
def validateExistanceAndCasingOfImport (fs : Fs)
    (fromPath importPath relativePathToValidate absolutePathToValidateFrom : String) :
    Option ResolverError :=
  match fs.trueCase absolutePathToValidateFrom relativePathToValidate with
  | none => some (.importNotFound importPath fromPath)
  | some trueCasePath =>
    if relativePathToValidate = trueCasePath then none
    else some (.incorrectCasing importPath fromPath trueCasePath)

/-- Outer dependency-map key for a given importing file (`index.ts`
line 417): the sentinel (`none`) for a project file, the package root
source name otherwise. -/
def depMapsKeyOf : ResolvedFile → Option String
  | .projectFile _ _ _ => none
  | .npmPackageFile _ _ _ p => some p.rootSourceName

/-- Base directory of the node-style lookup (`index.ts` line 436). -/
def baseResolutionDirOf (cfg : ResolverConfig) : ResolvedFile → String
  | .projectFile _ _ _ => cfg.projectRoot
  | .npmPackageFile _ _ _ p => p.rootPath

/-- The `package ... is not installed` error, whose wording depends on the
  importer (`index.ts` lines 446–456). -/
def packageNotInstalledErr (importPath pkgName : String) : ResolvedFile → ResolverError
  | .projectFile _ _ _ => .packageNotInstalledProject importPath pkgName
  | .npmPackageFile _ _ _ p =>
    .packageNotInstalledFrom importPath pkgName p.name p.version

/-- Classification of a freshly located dependency (`index.ts` lines
462–481): the project's own manifest becomes the sentinel; otherwise a
monorepo manifest gets version `local` and an installed one the manifest's
version. -/
def mkDependency (cfg : ResolverConfig) (packageJsonPath : String)
    (packageJson : PackageJson) : NpmDependency :=
  if isPackageJsonFromProject packageJsonPath cfg.projectRoot then
    .projectSentinel
  else
    let version :=
      if isPackageJsonFromMonorepo packageJsonPath cfg.projectRoot then "local"
      else packageJson.version
    .pkg
      { name := packageJson.name
        version := version
        rootPath := dirname packageJsonPath
        rootSourceName := npmPackageToRootSourceName packageJson.name version }

/-! ### Import resolution techniques (`index.ts` lines 520–745) -/
/-- Technique 1, `#resolveImportToProjectFile` (`index.ts` line 532). -/
def resolveImportToProjectFile (cfg : ResolverConfig) (fs : Fs) (s : ResolverState)
    (fro : ResolvedFile) (importPath pathWithinTheProject : String) : ResolveResult :=
  let sourceName := pathWithinTheProject
  match getA s.cache sourceName with
  | some cached => (.ok cached, s)
  | none =>
    match validateExistanceAndCasingOfImport fs fro.path importPath
        pathWithinTheProject cfg.projectRoot with
    | some e => (.error e, s)
    | none =>
      let filePath := pathJoin cfg.projectRoot pathWithinTheProject
      match fs.readUtf8 filePath with
      | none => (.error (.readError filePath), s)
      | some content =>
        let f : ResolvedFile := .projectFile sourceName filePath content
        (.ok f, { s with cache := setA s.cache sourceName f })

/-- Technique 2, `#resolveImportToNpmPackageRemappedByUser` (`index.ts`
line 586); `directImport` already has the user remapping applied and
`targetNpmPackage` is the remapping's package. -/
def resolveImportToNpmPackageRemappedByUser (fs : Fs) (s : ResolverState)
    (fro : ResolvedFile) (importPath directImport : String)
    (targetNpmPackage : NpmPackage) : ResolveResult :=
  let sourceName := directImport
  match getA s.cache sourceName with
  | some cached => (.ok cached, s)
  | none =>
    let relativeFilePath :=
      pathRelative
        (npmPackageToRootSourceName targetNpmPackage.name targetNpmPackage.version)
        directImport
    match validateExistanceAndCasingOfImport fs fro.path importPath
        relativeFilePath targetNpmPackage.rootPath with
    | some e => (.error e, s)
    | none =>
      let filePath := pathJoin targetNpmPackage.rootPath relativeFilePath
      match fs.readUtf8 filePath with
      | none => (.error (.readError filePath), s)
      | some content =>
        let f : ResolvedFile :=
          .npmPackageFile sourceName filePath content targetNpmPackage
        (.ok f, { s with cache := setA s.cache sourceName f })

/-- Technique 3, `#resolveLocalImportFromNpmPackage` (`index.ts` line 651);
`fromPackage` is the importing file's package.  Note that the validated
relative path strips the package root source name, while the constructed
`filePath` joins the package root with the full direct import. -/
def resolveLocalImportFromNpmPackage (fs : Fs) (s : ResolverState)
    (fro : ResolvedFile) (importPath directImport : String)
    (fromPackage : NpmPackage) : ResolveResult :=
  let sourceName := directImport
  match getA s.cache sourceName with
  | some cached => (.ok cached, s)
  | none =>
    let relativePath := pathRelative fromPackage.rootSourceName directImport
    match validateExistanceAndCasingOfImport fs fro.path importPath
        relativePath fromPackage.rootPath with
    | some e => (.error e, s)
    | none =>
      let filePath := pathJoin fromPackage.rootPath directImport
      match fs.readUtf8 filePath with
      | none => (.error (.readError filePath), s)
      | some content =>
        let f : ResolvedFile :=
          .npmPackageFile sourceName filePath content fromPackage
        (.ok f, { s with cache := setA s.cache sourceName f })

/-- Technique 4's construction step, `#resolveImportToNpmPackage`
(`index.ts` line 706). -/
def resolveImportToNpmPackage (fs : Fs) (s : ResolverState)
    (fro : ResolvedFile) (importPath : String) (importedPackage : NpmPackage)
    (pathWithinThePackage : String) : ResolveResult :=
  let sourceName := importedPackage.rootSourceName ++ pathWithinThePackage
  match getA s.cache sourceName with
  | some cached => (.ok cached, s)
  | none =>
    match validateExistanceAndCasingOfImport fs fro.path importPath
        pathWithinThePackage importedPackage.rootPath with
    | some e => (.error e, s)
    | none =>
      let filePath := pathJoin importedPackage.rootPath pathWithinThePackage
      match fs.readUtf8 filePath with
      | none => (.error (.readError filePath), s)
      | some content =>
        let f : ResolvedFile :=
          .npmPackageFile sourceName filePath content importedPackage
        (.ok f, { s with cache := setA s.cache sourceName f })

/-! ### Import resolution selection (`index.ts` lines 258–510) -/
/-- Dispatch on the stored dependency (`index.ts` lines 492–509): the
sentinel resolves back into the project, a package resolves into it. -/
def resolveNpmDependency (cfg : ResolverConfig) (fs : Fs) (s : ResolverState)
    (fro : ResolvedFile) (importPath : String) (parsed : NpmParsedImport) :
    NpmDependency → ResolveResult
  | .projectSentinel => resolveImportToProjectFile cfg fs s fro importPath parsed.path
  | .pkg p => resolveImportToNpmPackage fs s fro importPath p parsed.path

/-- Mirrors `#resolveImportThroughNpm` (`index.ts` line 402): parses the direct
  import, ensures a dependency-map entry for the `(origin, package)` pair
(locating and classifying the package on first use), and dispatches on the
stored dependency.  Note that the map writes happen before the imported
file is validated. -/
def resolveImportThroughNpm (cfg : ResolverConfig) (fs : Fs) (s : ResolverState)
    (fro : ResolvedFile) (importPath directImport : String) : ResolveResult :=
  match parseNpmDirectImport directImport with
  | none => (.error (.invalidNpmImport directImport), s)
  | some parsed =>
    let key := depMapsKeyOf fro
    let s1 :=
      if (getA s.depMaps key).isNone then
        { s with depMaps := setA s.depMaps key [] }
      else
        s
    match getA s1.depMaps key with
    | none => (.error .invariantViolation, s1)
    | some dependenciesMap =>
      match getA dependenciesMap parsed.package with
      | some dependency => resolveNpmDependency cfg fs s1 fro importPath parsed dependency
      | none =>
        match fs.resolveModule (parsed.package ++ "/package.json")
            (baseResolutionDirOf cfg fro) with
        | none => (.error (packageNotInstalledErr importPath parsed.package fro), s1)
        | some packageJsonPath =>
          match fs.readJson packageJsonPath with
          | none => (.error (.jsonReadError packageJsonPath), s1)
          | some packageJson =>
            let newDependency := mkDependency cfg packageJsonPath packageJson
            let s2 :=
              { s1 with
                depMaps :=
                  setA s1.depMaps key (setA dependenciesMap parsed.package newDependency) }
            resolveNpmDependency cfg fs s2 fro importPath parsed newDependency

/-- Mirrors `#resolveImportFromProjectFile` (`index.ts` line 280). -/
def resolveImportFromProjectFile (cfg : ResolverConfig) (fs : Fs) (s : ResolverState)
    (fro : ResolvedFile) (importPath directImport : String) : ResolveResult :=
  match selectBestRemapping fro.sourceName directImport cfg.userRemappings with
  | some bestUserRemapping =>
    let remappedDirectImport := applyValidRemapping directImport bestUserRemapping
    match bestUserRemapping.targetNpmPackage with
    | some targetNpmPackage =>
      resolveImportToNpmPackageRemappedByUser fs s fro importPath
        remappedDirectImport targetNpmPackage
    | none =>
      if isDirectImportLocal fs cfg.projectRoot remappedDirectImport then
        resolveImportToProjectFile cfg fs s fro importPath remappedDirectImport
      else
        (.error (.remapNotLocal bestUserRemapping.rawFormat importPath
          remappedDirectImport), s)
  | none =>
    if isDirectImportLocal fs cfg.projectRoot directImport then
      resolveImportToProjectFile cfg fs s fro importPath directImport
    else
      resolveImportThroughNpm cfg fs s fro importPath directImport

/-- Mirrors `#resolveImportFromNpmPackageFile` (`index.ts` line 353). -/
def resolveImportFromNpmPackageFile (cfg : ResolverConfig) (fs : Fs) (s : ResolverState)
    (fro : ResolvedFile) (fromPackage : NpmPackage) (importPath directImport : String) :
    ResolveResult :=
  if strStartsWith directImport fromPackage.rootSourceName then
    resolveLocalImportFromNpmPackage fs s fro importPath directImport fromPackage
  else if isDirectImportLocal fs fromPackage.rootPath directImport then
    resolveLocalImportFromNpmPackage fs s fro importPath
      (fromPackage.rootSourceName ++ directImport) fromPackage
  else
    resolveImportThroughNpm cfg fs s fro importPath directImport

/-! ### Public operations (`index.ts` lines 123–256) -/
/-- Mirrors `resolveProjectFile` (`index.ts` line 123). -/
def resolveProjectFile (cfg : ResolverConfig) (fs : Fs) (s : ResolverState)
    (absoluteFilePath : String) : ResolveResult :=
  let relativeFilePath := pathRelative cfg.projectRoot absoluteFilePath
  let sourceName := relativeFilePath
  match getA s.cache sourceName with
  | some cached => (.ok cached, s)
  | none =>
    if !(strStartsWith absoluteFilePath cfg.projectRoot) then
      (.error (.notWithinProject absoluteFilePath), s)
    else
      match fs.trueCase cfg.projectRoot relativeFilePath with
      | none => (.error (.projectFileMissing absoluteFilePath), s)
      | some trueCasePath =>
        if trueCasePath = relativeFilePath then
          match fs.readUtf8 absoluteFilePath with
          | none => (.error (.readError absoluteFilePath), s)
          | some content =>
            let f : ResolvedFile := .projectFile sourceName absoluteFilePath content
            (.ok f, { s with cache := setA s.cache sourceName f })
        else
          (.error (.invalidCasingProjectFile absoluteFilePath
            (pathJoin cfg.projectRoot trueCasePath)), s)

/-- Mirrors `resolveImport` (`index.ts` line 174): joins `./`/`../` imports with
the importer's directory, applies the escape checks, and dispatches on the
  importer's variant. -/
def resolveImport (cfg : ResolverConfig) (fs : Fs) (s : ResolverState)
    (fro : ResolvedFile) (importPath : String) : ResolveResult :=
  let isRelativeImport := strStartsWith importPath "./" || strStartsWith importPath "../"
  let directImport :=
    if isRelativeImport then pathJoin (dirname fro.sourceName) importPath
    else importPath
  match fro with
  | .npmPackageFile sn p c pkg =>
    if isRelativeImport && !(strStartsWith directImport pkg.rootSourceName) then
      (.error (.importOutsidePackage importPath p), s)
    else
      resolveImportFromNpmPackageFile cfg fs s (.npmPackageFile sn p c pkg) pkg
        importPath directImport
  | .projectFile sn p c =>
    if isRelativeImport && strStartsWith directImport "../" then
      (.error (.importOutsideProject importPath p), s)
    else
      resolveImportFromProjectFile cfg fs s (.projectFile sn p c) importPath directImport

/-- The synthetic `npm/:npm/=npm/` identity remapping (`index.ts`
lines 230–234). -/
def npmIdentityRemapping : Remapping :=
  { context := "npm/", pfx := "npm/", target := "npm/" }

/-- The remapping emitted for a dependency-map edge (`index.ts`
lines 239–251): empty context for the project sentinel origin, prefix the
  imported package name plus `/`, empty target for the sentinel dependency. -/
def remappingOfEdge (fromPackageSourceName : Option String)
    (e : String × NpmDependency) : Remapping :=
  { context :=
      match fromPackageSourceName with
      | none => ""
      | some sn => sn
    pfx := e.1 ++ "/"
    target :=
      match e.2 with
      | .projectSentinel => ""
      | .pkg dependency => dependency.rootSourceName }

/-- Body of the inner loop of `getRemappings`: before the first edge, push
the synthetic identity; then push the edge's remapping. -/
def remapStepInner (fromPackageSourceName : Option String)
    (acc : List Remapping × Bool) (e : String × NpmDependency) :
    List Remapping × Bool :=
  let withNpm :=
    if acc.2 then acc else (acc.1 ++ [npmIdentityRemapping], true)
  (withNpm.1 ++ [remappingOfEdge fromPackageSourceName e], withNpm.2)

/-- Body of the outer loop of `getRemappings` over dependency-map entries. -/
def remapStepOuter (acc : List Remapping × Bool)
    (entry : Option String × List (String × NpmDependency)) :
    List Remapping × Bool :=
  entry.2.foldl (remapStepInner entry.1) acc

/-- Mirrors `getRemappings` (`index.ts` line 215): the user remappings as plain
triples, then — lazily, right before the first dependency edge — the
synthetic `npm/:npm/=npm/` identity, then one triple per dependency edge. -/
def getRemappings (cfg : ResolverConfig) (s : ResolverState) : List Remapping :=
  (s.depMaps.foldl remapStepOuter
    (cfg.userRemappings.map
      (fun r => { context := r.context, pfx := r.pfx, target := r.target }),
     false)).1

/-- Mirrors `validateAndResolveRemapping` (`index.ts` line 861). -/
def validateAndResolveRemapping (fs : Fs) (projectRoot remappingString : String) :
    Except ResolverError UserRemapping :=
  match parseRemappingString remappingString with
  | none => .error (.invalidRemappingFormat remappingString)
  | some remapping =>
    if strStartsWith remapping.context "npm/" then
      .error (.invalidRemappingContext remappingString)
    else if !(strStartsWith remapping.target "npm/") then
      .ok
        { rawFormat := remappingString
          context := remapping.context
          pfx := remapping.pfx
          target := remapping.target
          targetNpmPackage := none }
    else
      match parseNpmRemappingTarget remapping.target with
      | none => .error (.invalidNpmTarget remappingString)
      | some parsed =>
        match fs.resolveModule (parsed.packageName ++ "/package.json") projectRoot with
        | none => .error (.remappingPackageNotInstalled parsed.packageName)
        | some dependencyPackageJsonPath =>
          if isPackageJsonFromMonorepo dependencyPackageJsonPath projectRoot &&
              parsed.packageVersion ≠ "local" then
            .error (.monorepoVersionMismatch parsed.packageName)
          else if isPackageJsonFromProject dependencyPackageJsonPath projectRoot then
            .error (.remapIntoProject parsed.packageName)
          else
            let npmPackage : NpmPackage :=
              { name := parsed.packageName
                version := parsed.packageVersion
                rootPath := dirname dependencyPackageJsonPath
                rootSourceName :=
                  npmPackageToRootSourceName parsed.packageName parsed.packageVersion }
            let accepted : UserRemapping :=
              { rawFormat := remappingString
                context := remapping.context
                pfx := remapping.pfx
                target := remapping.target
                targetNpmPackage := some npmPackage }
            if isPackageJsonFromNpmPackage dependencyPackageJsonPath then
              match fs.readJson dependencyPackageJsonPath with
              | none => .error (.jsonReadError dependencyPackageJsonPath)
              | some dependencyPackageJson =>
                if dependencyPackageJson.version = parsed.packageVersion then
                  .ok accepted
                else
                  .error (.packageVersionMismatch parsed.packageName)
            else
              .ok accepted

/-! ### C4: the locality predicate -/
/-- The reference locality predicate as the claim states it: the magic
constant `hardhat/console.sol` is never local; an import without `/` is
local; otherwise locality is the existence of the first path segment in
the given root. -/
def localityReference (fs : Fs) (root directImport : String) : Bool :=
  decide (directImport ≠ "hardhat/console.sol") &&
    (!(strContainsChar directImport '/') ||
      fs.existsF (pathJoin root (takeUntilChar directImport '/')))

/-! ### C3: the emitted remapping table -/
/-- All `(origin, imported package, dependency)` edges recorded in a
dependency map, in iteration order. -/
def depEdgesOf : List (Option String × List (String × NpmDependency)) →
    List (Option String × String × NpmDependency)
  | [] => []
  | entry :: rest => entry.2.map (fun e => (entry.1, e)) ++ depEdgesOf rest

/-- The remapping table as the claim describes it: the user remappings
verbatim, then — exactly when at least one dependency edge is recorded —
the synthetic identity followed by one triple per edge. -/
def remappingsReference (cfg : ResolverConfig) (s : ResolverState) : List Remapping :=
  cfg.userRemappings.map
      (fun r => { context := r.context, pfx := r.pfx, target := r.target }) ++
    (if depEdgesOf s.depMaps = [] then []
     else npmIdentityRemapping ::
       (depEdgesOf s.depMaps).map (fun e => remappingOfEdge e.1 e.2))

/-! ### C1: the PackageFile path invariant (technique 3 violates it) -/
/-- Fixture package for the technique-3 run: `dep@1.2.3` installed at
`/p/node_modules/dep`. -/
def c1pkg : NpmPackage :=
  { name := "dep", version := "1.2.3", rootPath := "/p/node_modules/dep"
    rootSourceName := "npm/dep@1.2.3/" }

/-- Fixture filesystem: `X.sol` exists (with its true casing) under the
package root, and — so that the run completes — a file also exists at the
path the code actually constructs, which contains the `npm/dep@1.2.3/`
prefix under the package root. -/
def c1fs : Fs :=
  { existsF := fun _ => false
    trueCase := fun base rel =>
      if base = "/p/node_modules/dep" && rel = "X.sol" then some "X.sol" else none
    readUtf8 := fun p =>
      if p = "/p/node_modules/dep/npm/dep@1.2.3/X.sol" then some "bogus" else none
    readJson := fun _ => none
    resolveModule := fun _ _ => none }

/-- Fixture config and importing file `npm/dep@1.2.3/A.sol`. -/
def c1cfg : ResolverConfig := { projectRoot := "/p", userRemappings := [] }

/-- The importing package file. -/
def c1from : ResolvedFile :=
  .npmPackageFile "npm/dep@1.2.3/A.sol" "/p/node_modules/dep/A.sol" "" c1pkg

/-! ### C5: the within-project check of `resolveProjectFile` -/
/-- Fixture config: project root `/r/proj`. -/
def c5cfg : ResolverConfig := { projectRoot := "/r/proj", userRemappings := [] }

/-- Fixture filesystem: `/r/project2/X.sol` exists (reachable from the
project root as `../project2/X.sol` with matching casing). -/
def c5fs : Fs :=
  { existsF := fun _ => false
    trueCase := fun base rel =>
      if base = "/r/proj" && rel = "../project2/X.sol" then some "../project2/X.sol"
      else none
    readUtf8 := fun p => if p = "/r/project2/X.sol" then some "content2" else none
    readJson := fun _ => none
    resolveModule := fun _ _ => none }

/-! ### C2: state mutation on failed resolutions -/
/-- Fixture config for the failing technique-4 run. -/
def c2cfg : ResolverConfig := { projectRoot := "/p", userRemappings := [] }

/-- Fixture filesystem: the package `dep` is installed (its manifest is
found and read), but the imported file inside it does not exist. -/
def c2fs : Fs :=
  { existsF := fun _ => false
    trueCase := fun _ _ => none
    readUtf8 := fun _ => none
    readJson := fun p =>
      if p = "/p/node_modules/dep/package.json" then
        some { name := "dep", version := "1.2.3" }
      else none
    resolveModule := fun imp fromDir =>
      if imp = "dep/package.json" && fromDir = "/p" then
        some "/p/node_modules/dep/package.json"
      else none }

/-- The importing project file. -/
def c2from : ResolvedFile := .projectFile "A.sol" "/p/A.sol" ""

/-- The dependency recorded by the failing run. -/
def c2pkg : NpmPackage :=
  { name := "dep", version := "1.2.3", rootPath := "/p/node_modules/dep"
    rootSourceName := "npm/dep@1.2.3/" }

/-- Fixture package for the C10 witness. -/
def c10pkg : NpmPackage :=
  { name := "dep", version := "1.2.3", rootPath := "/elsewhere/dep"
    rootSourceName := "npm/dep@1.2.3/" }

/-- A cached npm package file stored under the key `../q/X.sol` — the
source name that `resolveProjectFile` computes for `/q/X.sol` against the
project root `/p` — and also under a project-relative key and a
package-rooted key, to feed each cache consumer. -/
def c10file : ResolvedFile :=
  .npmPackageFile "../q/X.sol" "/q/X.sol" "zzz" c10pkg

/-- A second cached file (a project file stored under a package-rooted
source name). -/
def c10file2 : ResolvedFile := .projectFile "inner/Y.sol" "/p/inner/Y.sol" "yyy"

/-- Fixture state whose cache holds both files. -/
def c10state : ResolverState :=
  { cache := [("../q/X.sol", c10file), ("npm/dep@1.2.3/W.sol", c10file2)]
    depMaps := [(none, [])] }

/-- An oracle on which every lookup fails: nothing exists, nothing reads. -/
def c10fs : Fs :=
  { existsF := fun _ => false
    trueCase := fun _ _ => none
    readUtf8 := fun _ => none
    readJson := fun _ => none
    resolveModule := fun _ _ => none }

/-- Fixture config for the C10 witness. -/
def c10cfg : ResolverConfig := { projectRoot := "/p", userRemappings := [] }

/-- Fixture filesystem for the C7 witness: `m` resolves into the monorepo
root, `q` into the project, and `d` into `node_modules` with manifest
version `2.0.0`. -/
def c7fs : Fs :=
  { existsF := fun _ => false
    trueCase := fun _ _ => none
    readUtf8 := fun _ => none
    readJson := fun p =>
      if p = "/p/node_modules/d/package.json" then
        some { name := "d", version := "2.0.0" }
      else none
    resolveModule := fun imp fromDir =>
      if fromDir = "/p" then
        if imp = "m/package.json" then some "/mono/m/package.json"
        else if imp = "q/package.json" then some "/p/sub/package.json"
        else if imp = "d/package.json" then some "/p/node_modules/d/package.json"
        else none
      else none }

/-! ### The common cache-validate-read-build pattern of the techniques -/
/-- The shared shape of the four technique constructors: return the cached
entry if present; otherwise fail on `validation`; otherwise fail if the
read failed; otherwise build the file and insert it under `key`. -/
def cachedBuild (s : ResolverState) (key : String) (validation : Option ResolverError)
    (readResult : Option String) (build : String → ResolvedFile)
    (readPath : String) : ResolveResult :=
  match getA s.cache key with
  | some cached => (.ok cached, s)
  | none =>
    match validation with
    | some e => (.error e, s)
    | none =>
      match readResult with
      | none => (.error (.readError readPath), s)
      | some content =>
        (.ok (build content), { s with cache := setA s.cache key (build content) })

/-- The two escape errors of `resolveImport`'s relative-import check. -/
def isEscapeError : ResolverError → Bool
  | .importOutsideProject _ _ => true
  | .importOutsidePackage _ _ => true
  | _ => false

/-- A cache is consistent when every entry is stored under its own source
name (an invariant of every cache the resolver itself builds). -/
def CacheConsistent (c : List (String × ResolvedFile)) : Prop :=
  ∀ k f, getA c k = some f → f.sourceName = k

/-- Dependency recorded for origin `key` and imported package `name`. -/
def getDep (s : ResolverState) (key : Option String) (name : String) :
    Option NpmDependency :=
  (getA s.depMaps key).bind (fun m => getA m name)

/-! ### Case analyses of the dispatchers -/
/-- The direct import computed by `resolveImport` before dispatching. -/
def directImportOf (fro : ResolvedFile) (importPath : String) : String :=
  if strStartsWith importPath "./" || strStartsWith importPath "../" then
    pathJoin (dirname fro.sourceName) importPath
  else importPath

/-- Fixture config for the C8 witness. -/
def c8cfg : ResolverConfig := { projectRoot := "/p", userRemappings := [] }

/-- Fixture package for the C8 witness. -/
def c8pkg : NpmPackage :=
  { name := "dep", version := "1.2.3", rootPath := "/p/node_modules/dep"
    rootSourceName := "npm/dep@1.2.3/" }

/-- An oracle on which every lookup fails. -/
def c8fs : Fs :=
  { existsF := fun _ => false
    trueCase := fun _ _ => none
    readUtf8 := fun _ => none
    readJson := fun _ => none
    resolveModule := fun _ _ => none }

/-- State whose dependency map already records `(sentinel, dep)`. -/
def c8state : ResolverState :=
  { cache := [], depMaps := [(none, [("dep", .pkg c8pkg)])] }

/-- The importing project file for the C8 witness. -/
def c8from : ResolvedFile := .projectFile "A.sol" "/p/A.sol" ""

/-- Fixture config for the C9 witness. -/
def c9cfg : ResolverConfig := { projectRoot := "/p", userRemappings := [] }

/-- Fixture filesystem for the C9 witness: `contracts/B.sol` exists with
matching casing and content `b`. -/
def c9fs : Fs :=
  { existsF := fun p => p = "/p/contracts"
    trueCase := fun base rel =>
      if base = "/p" && rel = "contracts/B.sol" then some "contracts/B.sol"
      else none
    readUtf8 := fun p => if p = "/p/contracts/B.sol" then some "b" else none
    readJson := fun _ => none
    resolveModule := fun _ _ => none }

/-- The importing project file for the C9 witness. -/
def c9from : ResolvedFile := .projectFile "contracts/A.sol" "/p/contracts/A.sol" ""

/-- The file produced by the C9 witness run. -/
def c9file : ResolvedFile := .projectFile "contracts/B.sol" "/p/contracts/B.sol" "b"

/-- Fixture config and filesystem for the C6 witness. -/
def c6cfg : ResolverConfig := { projectRoot := "/p", userRemappings := [] }

/-- An oracle on which every lookup fails. -/
def c6fs : Fs :=
  { existsF := fun _ => false
    trueCase := fun _ _ => none
    readUtf8 := fun _ => none
    readJson := fun _ => none
    resolveModule := fun _ _ => none }

/-- Fixture package for the C6 witness. -/
def c6pkg : NpmPackage :=
  { name := "dep", version := "1.2.3", rootPath := "/d", rootSourceName := "npm/dep@1.2.3/" }

/-! ### Association-list lemmas -/
theorem getA_setA_self {κ α : Type} [DecidableEq κ] :
    ∀ (m : List (κ × α)) (k : κ) (v : α), getA (setA m k v) k = some v
  | [], k, v => by simp [setA, getA]
  | (k', v') :: rest, k, v => by
    by_cases h : k' = k
    · simp [setA, getA, h]
    · simp [setA, getA, h, getA_setA_self rest k v]

theorem getA_setA_ne {κ α : Type} [DecidableEq κ] :
    ∀ (m : List (κ × α)) (k : κ) (v : α) (k' : κ), k ≠ k' →
      getA (setA m k v) k' = getA m k'
  | [], k, v, k', h => by simp [setA, getA, h]
  | (a, b) :: rest, k, v, k', h => by
    by_cases ha : a = k
    · subst ha
      simp [setA, getA, h]
    · by_cases ha' : a = k'
      · subst ha'
        simp [setA, getA, ha, Ne.symm h]
      · simp [setA, getA, ha, ha', getA_setA_ne rest k v k' h]

/-- C4: the engine's locality predicate `#isDirectImportLocal` agrees with
the reference definition on every filesystem, root and direct import:
`hardhat/console.sol` is never local, an import with no `/` is local, and
otherwise locality is exactly the existence of the first segment in the
root. -/
theorem c4_locality_predicate_matches_reference :
    ∀ (fs : Fs) (root directImport : String),
      isDirectImportLocal fs root directImport = localityReference fs root directImport := by
  intro fs root directImport
  unfold isDirectImportLocal localityReference
  by_cases h : directImport = "hardhat/console.sol"
  · simp [h]
  · cases hc : strContainsChar directImport '/' <;> simp [h, hc]

theorem innerFold_true (k : Option String) :
    ∀ (m : List (String × NpmDependency)) (acc : List Remapping),
      m.foldl (remapStepInner k) (acc, true) = (acc ++ m.map (remappingOfEdge k), true)
  | [], acc => by simp
  | e :: rest, acc => by
    have h1 : remapStepInner k (acc, true) e = (acc ++ [remappingOfEdge k e], true) := by
      simp [remapStepInner]
    simp only [List.foldl_cons, h1, innerFold_true k rest (acc ++ [remappingOfEdge k e])]
    simp

theorem innerFold_false (k : Option String) (m : List (String × NpmDependency))
    (acc : List Remapping) :
    m.foldl (remapStepInner k) (acc, false) =
      (if m = [] then (acc, false)
       else (acc ++ npmIdentityRemapping :: m.map (remappingOfEdge k), true)) := by
  cases m with
  | nil => simp
  | cons e rest =>
    have h1 : remapStepInner k (acc, false) e =
        (acc ++ [npmIdentityRemapping, remappingOfEdge k e], true) := by
      simp [remapStepInner]
    simp only [List.foldl_cons, h1,
      innerFold_true k rest (acc ++ [npmIdentityRemapping, remappingOfEdge k e])]
    simp

theorem outerFold_true :
    ∀ (L : List (Option String × List (String × NpmDependency))) (acc : List Remapping),
      L.foldl remapStepOuter (acc, true) =
        (acc ++ (depEdgesOf L).map (fun e => remappingOfEdge e.1 e.2), true)
  | [], acc => by simp [depEdgesOf]
  | entry :: rest, acc => by
    have h1 : remapStepOuter (acc, true) entry =
        (acc ++ entry.2.map (remappingOfEdge entry.1), true) := by
      simp [remapStepOuter, innerFold_true]
    simp only [List.foldl_cons, h1,
      outerFold_true rest (acc ++ entry.2.map (remappingOfEdge entry.1))]
    simp [depEdgesOf, List.map_map, Function.comp_def]

theorem outerFold_false :
    ∀ (L : List (Option String × List (String × NpmDependency))) (acc : List Remapping),
      L.foldl remapStepOuter (acc, false) =
        (if depEdgesOf L = [] then (acc, false)
         else (acc ++ npmIdentityRemapping ::
           (depEdgesOf L).map (fun e => remappingOfEdge e.1 e.2), true))
  | [], acc => by simp [depEdgesOf]
  | entry :: rest, acc => by
    by_cases hm : entry.2 = []
    · have h1 : remapStepOuter (acc, false) entry = (acc, false) := by
        simp [remapStepOuter, hm]
      have h2 : depEdgesOf (entry :: rest) = depEdgesOf rest := by
        simp [depEdgesOf, hm]
      simp only [List.foldl_cons, h1, outerFold_false rest acc, h2]
    · have h1 : remapStepOuter (acc, false) entry =
          (acc ++ npmIdentityRemapping :: entry.2.map (remappingOfEdge entry.1), true) := by
        simp [remapStepOuter, innerFold_false, hm]
      have hne : depEdgesOf (entry :: rest) ≠ [] := by
        simp [depEdgesOf, hm]
      simp only [List.foldl_cons, h1, outerFold_true, if_neg hne]
      simp [depEdgesOf, List.map_map, Function.comp_def]

/-- C3: `getRemappings` returns the user remappings first, verbatim as
triples; then, if and only if the dependency map records at least one
edge, the synthetic `npm/:npm/=npm/` triple followed by one triple per
recorded edge, with empty context for the project-sentinel origin, prefix
the imported package name plus `/`, and empty target for the sentinel
dependency. -/
theorem c3_getRemappings_matches_reference :
    ∀ (cfg : ResolverConfig) (s : ResolverState),
      getRemappings cfg s = remappingsReference cfg s := by
  intro cfg s
  unfold getRemappings remappingsReference
  rw [outerFold_false]
  by_cases h : depEdgesOf s.depMaps = [] <;> simp [h]

/-- C1 (code bug): a technique-3 resolution (`./X.sol` imported inside
`npm/dep@1.2.3/A.sol`) produces a `PackageFile` whose absolute path is the
package root joined with the **full** source name — it keeps the
`npm/dep@1.2.3/` prefix — and therefore differs from the claimed
`root_absolute_path + '/' + strip_prefix(source_name, root_source_name)`,
even though the existence/casing validation was performed against the
stripped path. -/
theorem c1_technique3_path_keeps_npm_root :
    (resolveImport c1cfg c1fs initialState c1from "./X.sol").1 =
      .ok (.npmPackageFile "npm/dep@1.2.3/X.sol"
        "/p/node_modules/dep/npm/dep@1.2.3/X.sol" "bogus" c1pkg) ∧
    "/p/node_modules/dep/npm/dep@1.2.3/X.sol" ≠
      c1pkg.rootPath ++ "/" ++
        strDrop "npm/dep@1.2.3/X.sol" (strLen c1pkg.rootSourceName) := by
  exact ⟨rfl, by decide⟩

/-- C5 (code bug): resolving `/r/project2/X.sol` against project root
`/r/proj` does **not** fail with `NotWithinProject` — the code's string
`startsWith` check accepts the sibling directory whose name merely shares
a string prefix with the root — and instead returns a `ProjectFile` whose
source name `../project2/X.sol` escapes the project. -/
theorem c5_sibling_directory_passes_within_project_check :
    (resolveProjectFile c5cfg c5fs initialState "/r/project2/X.sol").1 =
      .ok (.projectFile "../project2/X.sol" "/r/project2/X.sol" "content2") ∧
    ∀ e, (resolveProjectFile c5cfg c5fs initialState "/r/project2/X.sol").1 ≠
      .error e := by
  have h : (resolveProjectFile c5cfg c5fs initialState "/r/project2/X.sol").1 =
      .ok (.projectFile "../project2/X.sol" "/r/project2/X.sol" "content2") := rfl
  refine ⟨h, fun e => ?_⟩
  rw [h]
  simp

/-- C2 counterexample: a technique-4 resolution that locates and
classifies the package `dep` and then fails the existence validation
leaves the dependency-map entry `(project sentinel, "dep")` behind, so the
resolver's state is *not* unchanged on this failing call. -/
theorem c2_failed_resolution_mutates_dependency_map :
    (resolveImport c2cfg c2fs initialState c2from "dep/Missing.sol").1 =
      .error (.importNotFound "dep/Missing.sol" "/p/A.sol") ∧
    (resolveImport c2cfg c2fs initialState c2from "dep/Missing.sol").2.depMaps =
      [(none, [("dep", .pkg c2pkg)])] ∧
    [(none, [("dep", NpmDependency.pkg c2pkg)])] ≠ initialState.depMaps := by
  exact ⟨rfl, rfl, by decide⟩

/-! ### C10: cache hits bypass all validation -/
/-- C10: whenever the computed source name is already cached, every cache
consumer — `resolveProjectFile` and all four technique constructors —
returns the cached `ResolvedFile` unchanged (whatever its variant) with an
untouched state, on *every* filesystem: the within-project, existence and
casing checks are never consulted. -/
theorem c10_cache_hit_bypasses_validation :
    (∀ (cfg : ResolverConfig) (fs : Fs) (s : ResolverState)
        (absoluteFilePath : String) (f : ResolvedFile),
      getA s.cache (pathRelative cfg.projectRoot absoluteFilePath) = some f →
      resolveProjectFile cfg fs s absoluteFilePath = (.ok f, s)) ∧
    (∀ (cfg : ResolverConfig) (fs : Fs) (s : ResolverState) (fro : ResolvedFile)
        (importPath pathWithinTheProject : String) (f : ResolvedFile),
      getA s.cache pathWithinTheProject = some f →
      resolveImportToProjectFile cfg fs s fro importPath pathWithinTheProject =
        (.ok f, s)) ∧
    (∀ (fs : Fs) (s : ResolverState) (fro : ResolvedFile)
        (importPath directImport : String) (pkg : NpmPackage) (f : ResolvedFile),
      getA s.cache directImport = some f →
      resolveImportToNpmPackageRemappedByUser fs s fro importPath directImport pkg =
        (.ok f, s)) ∧
    (∀ (fs : Fs) (s : ResolverState) (fro : ResolvedFile)
        (importPath directImport : String) (pkg : NpmPackage) (f : ResolvedFile),
      getA s.cache directImport = some f →
      resolveLocalImportFromNpmPackage fs s fro importPath directImport pkg =
        (.ok f, s)) ∧
    (∀ (fs : Fs) (s : ResolverState) (fro : ResolvedFile)
        (importPath : String) (pkg : NpmPackage) (pathWithinThePackage : String)
        (f : ResolvedFile),
      getA s.cache (pkg.rootSourceName ++ pathWithinThePackage) = some f →
      resolveImportToNpmPackage fs s fro importPath pkg pathWithinThePackage =
        (.ok f, s)) := by
  refine ⟨?_, ?_, ?_, ?_, ?_⟩
  · intro cfg fs s abs f h
    simp [resolveProjectFile, h]
  · intro cfg fs s fro importPath p f h
    simp [resolveImportToProjectFile, h]
  · intro fs s fro importPath d pkg f h
    simp [resolveImportToNpmPackageRemappedByUser, h]
  · intro fs s fro importPath d pkg f h
    simp [resolveLocalImportFromNpmPackage, h]
  · intro fs s fro importPath pkg pw f h
    simp [resolveImportToNpmPackage, h]

/-- C10 witness: on a filesystem where nothing exists, a path outside the
project root still resolves to the cached file — which is even the npm
variant — and each technique returns its cached entry untouched. -/
theorem c10_cache_hit_bypasses_validation_witness :
    resolveProjectFile c10cfg c10fs c10state "/q/X.sol" = (.ok c10file, c10state) ∧
    resolveImportToProjectFile c10cfg c10fs c10state c10file2 "i" "../q/X.sol" =
      (.ok c10file, c10state) ∧
    resolveImportToNpmPackageRemappedByUser c10fs c10state c10file2 "i" "../q/X.sol"
      c10pkg = (.ok c10file, c10state) ∧
    resolveLocalImportFromNpmPackage c10fs c10state c10file2 "i" "../q/X.sol" c10pkg =
      (.ok c10file, c10state) ∧
    resolveImportToNpmPackage c10fs c10state c10file2 "i" c10pkg "W.sol" =
      (.ok c10file2, c10state) :=
  ⟨c10_cache_hit_bypasses_validation.1 c10cfg c10fs c10state "/q/X.sol" c10file rfl,
   c10_cache_hit_bypasses_validation.2.1 c10cfg c10fs c10state c10file2 "i"
     "../q/X.sol" c10file rfl,
   c10_cache_hit_bypasses_validation.2.2.1 c10fs c10state c10file2 "i" "../q/X.sol"
     c10pkg c10file rfl,
   c10_cache_hit_bypasses_validation.2.2.2.1 c10fs c10state c10file2 "i" "../q/X.sol"
     c10pkg c10file rfl,
   c10_cache_hit_bypasses_validation.2.2.2.2 c10fs c10state c10file2 "i" c10pkg
     "W.sol" c10file2 rfl⟩

/-! ### C7: user-remapping validation -/
theorem project_not_monorepo (p r : String)
    (h : isPackageJsonFromProject p r = true) :
    isPackageJsonFromMonorepo p r = false := by
  unfold isPackageJsonFromProject at h
  unfold isPackageJsonFromMonorepo
  cases hc : strContainsSub p "node_modules" <;>
    cases hs : strStartsWith p r <;> simp_all

theorem npm_not_monorepo (p r : String)
    (h : isPackageJsonFromNpmPackage p = true) :
    isPackageJsonFromMonorepo p r = false := by
  unfold isPackageJsonFromNpmPackage at h
  unfold isPackageJsonFromMonorepo
  simp [h]

theorem npm_not_project (p r : String)
    (h : isPackageJsonFromNpmPackage p = true) :
    isPackageJsonFromProject p r = false := by
  unfold isPackageJsonFromNpmPackage at h
  unfold isPackageJsonFromProject
  simp [h]

/-- C7: during resolver creation, each user remapping string parsed as
`rm` is validated exactly as claimed: a context beginning with `npm/`
fails; a non-`npm/` target is accepted as a local remapping with no target
package; an `npm/` target that the `npm/<name>@(<triple>|local)/` pattern
rejects fails with the invalid-target error; and for a located manifest,
a monorepo manifest with declared version other than `local` fails with
the monorepo mismatch, the project's own manifest fails with
remap-into-project, and a `node_modules` manifest whose `version` differs
from the declared one fails with the version mismatch. -/
theorem c7_user_remapping_validation :
    ∀ (fs : Fs) (projectRoot remappingString : String) (rm : Remapping),
      parseRemappingString remappingString = some rm →
      (strStartsWith rm.context "npm/" = true →
        validateAndResolveRemapping fs projectRoot remappingString =
          .error (.invalidRemappingContext remappingString)) ∧
      (strStartsWith rm.context "npm/" = false →
        strStartsWith rm.target "npm/" = false →
        validateAndResolveRemapping fs projectRoot remappingString =
          .ok { rawFormat := remappingString, context := rm.context, pfx := rm.pfx,
                target := rm.target, targetNpmPackage := none }) ∧
      (strStartsWith rm.context "npm/" = false →
        strStartsWith rm.target "npm/" = true →
        parseNpmRemappingTarget rm.target = none →
        validateAndResolveRemapping fs projectRoot remappingString =
          .error (.invalidNpmTarget remappingString)) ∧
      (∀ (parsed : NpmTargetParse) (pjPath : String),
        strStartsWith rm.context "npm/" = false →
        strStartsWith rm.target "npm/" = true →
        parseNpmRemappingTarget rm.target = some parsed →
        fs.resolveModule (parsed.packageName ++ "/package.json") projectRoot =
          some pjPath →
        (isPackageJsonFromMonorepo pjPath projectRoot = true →
          parsed.packageVersion ≠ "local" →
          validateAndResolveRemapping fs projectRoot remappingString =
            .error (.monorepoVersionMismatch parsed.packageName)) ∧
        (isPackageJsonFromProject pjPath projectRoot = true →
          validateAndResolveRemapping fs projectRoot remappingString =
            .error (.remapIntoProject parsed.packageName)) ∧
        (∀ pj : PackageJson, isPackageJsonFromNpmPackage pjPath = true →
          fs.readJson pjPath = some pj →
          pj.version ≠ parsed.packageVersion →
          validateAndResolveRemapping fs projectRoot remappingString =
            .error (.packageVersionMismatch parsed.packageName))) := by
  intro fs projectRoot remappingString rm hparse
  refine ⟨?_, ?_, ?_, ?_⟩
  · intro hc
    simp [validateAndResolveRemapping, hparse, hc]
  · intro hc ht
    simp [validateAndResolveRemapping, hparse, hc, ht]
  · intro hc ht hp
    simp [validateAndResolveRemapping, hparse, hc, ht, hp]
  · intro parsed pjPath hc ht hp hm
    refine ⟨?_, ?_, ?_⟩
    · intro hmo hv
      simp [validateAndResolveRemapping, hparse, hc, ht, hp, hm, hmo, hv]
    · intro hpr
      simp [validateAndResolveRemapping, hparse, hc, ht, hp, hm, hpr,
        project_not_monorepo pjPath projectRoot hpr]
    · intro pj hn hj hv
      simp [validateAndResolveRemapping, hparse, hc, ht, hp, hm, hn, hj, hv,
        npm_not_monorepo pjPath projectRoot hn, npm_not_project pjPath projectRoot hn]

/-- C7 witness: each validation outcome at a concrete remapping string. -/
theorem c7_user_remapping_validation_witness :
    validateAndResolveRemapping c7fs "/p" "npm/x:a=b" =
      .error (.invalidRemappingContext "npm/x:a=b") ∧
    validateAndResolveRemapping c7fs "/p" "a=b" =
      .ok { rawFormat := "a=b", context := "", pfx := "a", target := "b",
            targetNpmPackage := none } ∧
    validateAndResolveRemapping c7fs "/p" "x=npm/a@2/" =
      .error (.invalidNpmTarget "x=npm/a@2/") ∧
    validateAndResolveRemapping c7fs "/p" "x=npm/m@1.0.0/" =
      .error (.monorepoVersionMismatch "m") ∧
    validateAndResolveRemapping c7fs "/p" "x=npm/q@1.0.0/" =
      .error (.remapIntoProject "q") ∧
    validateAndResolveRemapping c7fs "/p" "x=npm/d@1.0.0/" =
      .error (.packageVersionMismatch "d") :=
  ⟨(c7_user_remapping_validation c7fs "/p" "npm/x:a=b"
      { context := "npm/x", pfx := "a", target := "b" } rfl).1 rfl,
   (c7_user_remapping_validation c7fs "/p" "a=b"
      { context := "", pfx := "a", target := "b" } rfl).2.1 rfl rfl,
   (c7_user_remapping_validation c7fs "/p" "x=npm/a@2/"
      { context := "", pfx := "x", target := "npm/a@2/" } rfl).2.2.1 rfl rfl rfl,
   ((c7_user_remapping_validation c7fs "/p" "x=npm/m@1.0.0/"
      { context := "", pfx := "x", target := "npm/m@1.0.0/" } rfl).2.2.2
      { packageName := "m", packageVersion := "1.0.0" }
      "/mono/m/package.json" rfl rfl rfl rfl).1 rfl (by decide),
   ((c7_user_remapping_validation c7fs "/p" "x=npm/q@1.0.0/"
      { context := "", pfx := "x", target := "npm/q@1.0.0/" } rfl).2.2.2
      { packageName := "q", packageVersion := "1.0.0" }
      "/p/sub/package.json" rfl rfl rfl rfl).2.1 rfl,
   ((c7_user_remapping_validation c7fs "/p" "x=npm/d@1.0.0/"
      { context := "", pfx := "x", target := "npm/d@1.0.0/" } rfl).2.2.2
      { packageName := "d", packageVersion := "1.0.0" }
      "/p/node_modules/d/package.json" rfl rfl rfl rfl).2.2
      { name := "d", version := "2.0.0" } rfl rfl (by decide)⟩

theorem toProjectFile_eq_cachedBuild (cfg : ResolverConfig) (fs : Fs)
    (s : ResolverState) (fro : ResolvedFile) (importPath p : String) :
    resolveImportToProjectFile cfg fs s fro importPath p =
      cachedBuild s p
        (validateExistanceAndCasingOfImport fs fro.path importPath p cfg.projectRoot)
        (fs.readUtf8 (pathJoin cfg.projectRoot p))
        (fun content => .projectFile p (pathJoin cfg.projectRoot p) content)
        (pathJoin cfg.projectRoot p) := rfl

theorem remappedByUser_eq_cachedBuild (fs : Fs) (s : ResolverState)
    (fro : ResolvedFile) (importPath d : String) (pkg : NpmPackage) :
    resolveImportToNpmPackageRemappedByUser fs s fro importPath d pkg =
      cachedBuild s d
        (validateExistanceAndCasingOfImport fs fro.path importPath
          (pathRelative (npmPackageToRootSourceName pkg.name pkg.version) d)
          pkg.rootPath)
        (fs.readUtf8 (pathJoin pkg.rootPath
          (pathRelative (npmPackageToRootSourceName pkg.name pkg.version) d)))
        (fun content => .npmPackageFile d
          (pathJoin pkg.rootPath
            (pathRelative (npmPackageToRootSourceName pkg.name pkg.version) d))
          content pkg)
        (pathJoin pkg.rootPath
          (pathRelative (npmPackageToRootSourceName pkg.name pkg.version) d)) := rfl

theorem localFromNpm_eq_cachedBuild (fs : Fs) (s : ResolverState)
    (fro : ResolvedFile) (importPath d : String) (pkg : NpmPackage) :
    resolveLocalImportFromNpmPackage fs s fro importPath d pkg =
      cachedBuild s d
        (validateExistanceAndCasingOfImport fs fro.path importPath
          (pathRelative pkg.rootSourceName d) pkg.rootPath)
        (fs.readUtf8 (pathJoin pkg.rootPath d))
        (fun content => .npmPackageFile d (pathJoin pkg.rootPath d) content pkg)
        (pathJoin pkg.rootPath d) := rfl

theorem toNpmPackage_eq_cachedBuild (fs : Fs) (s : ResolverState)
    (fro : ResolvedFile) (importPath : String) (pkg : NpmPackage) (pw : String) :
    resolveImportToNpmPackage fs s fro importPath pkg pw =
      cachedBuild s (pkg.rootSourceName ++ pw)
        (validateExistanceAndCasingOfImport fs fro.path importPath pw pkg.rootPath)
        (fs.readUtf8 (pathJoin pkg.rootPath pw))
        (fun content => .npmPackageFile (pkg.rootSourceName ++ pw)
          (pathJoin pkg.rootPath pw) content pkg)
        (pathJoin pkg.rootPath pw) := rfl

theorem validate_not_escape (fs : Fs) (fromPath importPath rel abs : String)
    (e : ResolverError)
    (h : validateExistanceAndCasingOfImport fs fromPath importPath rel abs = some e) :
    isEscapeError e = false := by
  unfold validateExistanceAndCasingOfImport at h
  cases htc : fs.trueCase abs rel with
  | none =>
    rw [htc] at h
    cases h
    rfl
  | some tc =>
    rw [htc] at h
    by_cases heq : rel = tc
    · simp [heq] at h
    · simp [heq] at h
      cases h
      rfl

theorem cachedBuild_cases (s : ResolverState) (key : String)
    (v : Option ResolverError) (r : Option String) (b : String → ResolvedFile)
    (rp : String) :
    (∃ f, getA s.cache key = some f ∧ cachedBuild s key v r b rp = (.ok f, s)) ∨
    (∃ e, getA s.cache key = none ∧ cachedBuild s key v r b rp = (.error e, s) ∧
      (e = .readError rp ∨ v = some e)) ∨
    (∃ content, getA s.cache key = none ∧ r = some content ∧
      cachedBuild s key v r b rp =
        (.ok (b content), { s with cache := setA s.cache key (b content) })) := by
  unfold cachedBuild
  cases hc : getA s.cache key with
  | some f => exact Or.inl ⟨f, rfl, rfl⟩
  | none =>
    cases hv : v with
    | some e => exact Or.inr (Or.inl ⟨e, rfl, rfl, Or.inr rfl⟩)
    | none =>
      cases hr : r with
      | none => exact Or.inr (Or.inl ⟨.readError rp, rfl, rfl, Or.inl rfl⟩)
      | some content => exact Or.inr (Or.inr ⟨content, rfl, rfl, rfl⟩)

theorem cachedBuild_error_state (s : ResolverState) (key : String)
    (v : Option ResolverError) (r : Option String) (b : String → ResolvedFile)
    (rp : String) (e : ResolverError)
    (h : (cachedBuild s key v r b rp).1 = .error e) :
    (cachedBuild s key v r b rp).2 = s := by
  rcases cachedBuild_cases s key v r b rp with ⟨f, _, he⟩ | ⟨e', _, he, _⟩ |
    ⟨c, _, _, he⟩ <;> rw [he] at h ⊢ <;> simp_all

theorem cachedBuild_depMaps (s : ResolverState) (key : String)
    (v : Option ResolverError) (r : Option String) (b : String → ResolvedFile)
    (rp : String) :
    (cachedBuild s key v r b rp).2.depMaps = s.depMaps := by
  rcases cachedBuild_cases s key v r b rp with ⟨f, _, he⟩ | ⟨e', _, he, _⟩ |
    ⟨c, _, _, he⟩ <;> rw [he]

theorem cachedBuild_error_kind (s : ResolverState) (key : String)
    (v : Option ResolverError) (r : Option String) (b : String → ResolvedFile)
    (rp : String) (e : ResolverError)
    (h : (cachedBuild s key v r b rp).1 = .error e) :
    e = .readError rp ∨ v = some e := by
  rcases cachedBuild_cases s key v r b rp with ⟨f, _, he⟩ | ⟨e', _, he, hk⟩ |
    ⟨c, _, _, he⟩ <;> rw [he] at h <;> simp_all

theorem cachedBuild_ok_cases (s : ResolverState) (key : String)
    (v : Option ResolverError) (r : Option String) (b : String → ResolvedFile)
    (rp : String) (f : ResolvedFile) (s' : ResolverState)
    (h : cachedBuild s key v r b rp = (.ok f, s')) :
    (getA s.cache key = some f ∧ s' = s) ∨
    (getA s'.cache key = some f ∧ s'.depMaps = s.depMaps ∧
      s'.cache = setA s.cache key f) ∨
    (getA s.cache key = some f ∧ s' = s ∧ False) := by
  rcases cachedBuild_cases s key v r b rp with ⟨f0, hk, he⟩ | ⟨e', _, he, _⟩ |
    ⟨c, hk, hr, he⟩
  · rw [he] at h
    cases h
    exact Or.inl ⟨hk, rfl⟩
  · rw [he] at h
    cases h
  · rw [he] at h
    have hf : f = b c ∧ s' = { s with cache := setA s.cache key (b c) } := by
      have h1 := congrArg Prod.fst h
      have h2 := congrArg Prod.snd h
      simp at h1 h2
      exact ⟨h1.symm, h2.symm⟩
    rcases hf with ⟨hf1, hf2⟩
    subst hf1
    subst hf2
    exact Or.inr (Or.inl ⟨getA_setA_self s.cache key (b c), rfl, rfl⟩)

theorem cachedBuild_ok_cached (s : ResolverState) (key : String)
    (v : Option ResolverError) (r : Option String) (b : String → ResolvedFile)
    (rp : String) (f : ResolvedFile) (s' : ResolverState)
    (h : cachedBuild s key v r b rp = (.ok f, s')) :
    getA s'.cache key = some f := by
  rcases cachedBuild_ok_cases s key v r b rp f s' h with ⟨hk, hs⟩ |
    ⟨hk, _, _⟩ | ⟨_, _, hfalse⟩
  · rw [hs]
    exact hk
  · exact hk
  · exact absurd hfalse not_false

theorem cachedBuild_idem (s : ResolverState) (key : String)
    (v : Option ResolverError) (r : Option String) (b : String → ResolvedFile)
    (rp : String) (f : ResolvedFile) (s' : ResolverState)
    (h : cachedBuild s key v r b rp = (.ok f, s')) :
    ∀ (v' : Option ResolverError) (r' : Option String) (rp' : String),
      cachedBuild s' key v' r' b rp' = (.ok f, s') := by
  intro v' r' rp'
  have hc : getA s'.cache key = some f := cachedBuild_ok_cached s key v r b rp f s' h
  unfold cachedBuild
  rw [hc]

theorem cachedBuild_ok_depMaps (s : ResolverState) (key : String)
    (v : Option ResolverError) (r : Option String) (b : String → ResolvedFile)
    (rp : String) (f : ResolvedFile) (s' : ResolverState)
    (h : cachedBuild s key v r b rp = (.ok f, s')) :
    s'.depMaps = s.depMaps := by
  have := cachedBuild_depMaps s key v r b rp
  rw [h] at this
  exact this

theorem cachedBuild_ok_sourceName (s : ResolverState) (key : String)
    (v : Option ResolverError) (r : Option String) (b : String → ResolvedFile)
    (rp : String) (f : ResolvedFile) (s' : ResolverState)
    (h : cachedBuild s key v r b rp = (.ok f, s'))
    (hb : ∀ c, (b c).sourceName = key) (hcons : CacheConsistent s.cache) :
    f.sourceName = key := by
  rcases cachedBuild_cases s key v r b rp with ⟨f0, hk, he⟩ | ⟨e', _, he, _⟩ |
    ⟨c, hk, hr, he⟩
  · rw [he] at h
    cases h
    exact hcons _ _ hk
  · rw [he] at h
    cases h
  · rw [he] at h
    have h1 := congrArg Prod.fst h
    simp at h1
    rw [← h1]
    exact hb c

/-! ### Dependency-map preservation lemmas -/
theorem getDep_preserved_init (s : ResolverState) (key : Option String)
    (hk : getA s.depMaps key = none) (k : Option String) (n : String)
    (d : NpmDependency) (h : getDep s k n = some d) :
    getDep { s with depMaps := setA s.depMaps key [] } k n = some d := by
  unfold getDep at h ⊢
  by_cases hkk : key = k
  · subst hkk
    rw [hk] at h
    cases h
  · simp only [getA_setA_ne s.depMaps key [] k hkk]
    exact h

theorem getDep_preserved_set (s : ResolverState) (key : Option String)
    (m : List (String × NpmDependency)) (pkgName : String) (nd : NpmDependency)
    (hk : getA s.depMaps key = some m) (hi : getA m pkgName = none)
    (k : Option String) (n : String) (d : NpmDependency)
    (h : getDep s k n = some d) :
    getDep { s with depMaps := setA s.depMaps key (setA m pkgName nd) } k n =
      some d := by
  unfold getDep at h ⊢
  by_cases hkk : key = k
  · subst hkk
    rw [hk] at h
    have h' : getA m n = some d := h
    rw [getA_setA_self]
    show getA (setA m pkgName nd) n = some d
    by_cases hnn : pkgName = n
    · subst hnn
      rw [hi] at h'
      cases h'
    · rw [getA_setA_ne m pkgName nd n hnn]
      exact h'
  · simp only [getA_setA_ne s.depMaps key (setA m pkgName nd) k hkk]
    exact h

/-! ### Lemmas about the dependency dispatch `resolveNpmDependency` -/
theorem npmDep_depMaps (cfg : ResolverConfig) (fs : Fs) (s : ResolverState)
    (fro : ResolvedFile) (ip : String) (parsed : NpmParsedImport)
    (dep : NpmDependency) :
    (resolveNpmDependency cfg fs s fro ip parsed dep).2.depMaps = s.depMaps := by
  cases dep with
  | projectSentinel =>
    simp only [resolveNpmDependency, toProjectFile_eq_cachedBuild]
    exact cachedBuild_depMaps _ _ _ _ _ _
  | pkg p =>
    simp only [resolveNpmDependency, toNpmPackage_eq_cachedBuild]
    exact cachedBuild_depMaps _ _ _ _ _ _

theorem npmDep_error_state (cfg : ResolverConfig) (fs : Fs) (s : ResolverState)
    (fro : ResolvedFile) (ip : String) (parsed : NpmParsedImport)
    (dep : NpmDependency) (e : ResolverError)
    (h : (resolveNpmDependency cfg fs s fro ip parsed dep).1 = .error e) :
    (resolveNpmDependency cfg fs s fro ip parsed dep).2 = s := by
  cases dep with
  | projectSentinel =>
    simp only [resolveNpmDependency, toProjectFile_eq_cachedBuild] at h ⊢
    exact cachedBuild_error_state _ _ _ _ _ _ _ h
  | pkg p =>
    simp only [resolveNpmDependency, toNpmPackage_eq_cachedBuild] at h ⊢
    exact cachedBuild_error_state _ _ _ _ _ _ _ h

theorem npmDep_noEscape (cfg : ResolverConfig) (fs : Fs) (s : ResolverState)
    (fro : ResolvedFile) (ip : String) (parsed : NpmParsedImport)
    (dep : NpmDependency) (e : ResolverError)
    (h : (resolveNpmDependency cfg fs s fro ip parsed dep).1 = .error e) :
    isEscapeError e = false := by
  cases dep with
  | projectSentinel =>
    simp only [resolveNpmDependency, toProjectFile_eq_cachedBuild] at h
    rcases cachedBuild_error_kind _ _ _ _ _ _ _ h with he | hv
    · rw [he]
      rfl
    · exact validate_not_escape _ _ _ _ _ _ hv
  | pkg p =>
    simp only [resolveNpmDependency, toNpmPackage_eq_cachedBuild] at h
    rcases cachedBuild_error_kind _ _ _ _ _ _ _ h with he | hv
    · rw [he]
      rfl
    · exact validate_not_escape _ _ _ _ _ _ hv

theorem npmDep_idem (cfg : ResolverConfig) (fs : Fs) (s : ResolverState)
    (fro : ResolvedFile) (ip : String) (parsed : NpmParsedImport)
    (dep : NpmDependency) (f : ResolvedFile) (s' : ResolverState)
    (h : resolveNpmDependency cfg fs s fro ip parsed dep = (.ok f, s')) :
    resolveNpmDependency cfg fs s' fro ip parsed dep = (.ok f, s') := by
  cases dep with
  | projectSentinel =>
    simp only [resolveNpmDependency, toProjectFile_eq_cachedBuild] at h ⊢
    exact cachedBuild_idem _ _ _ _ _ _ _ _ h _ _ _
  | pkg p =>
    simp only [resolveNpmDependency, toNpmPackage_eq_cachedBuild] at h ⊢
    exact cachedBuild_idem _ _ _ _ _ _ _ _ h _ _ _

theorem npmDep_ok_cached (cfg : ResolverConfig) (fs : Fs) (s : ResolverState)
    (fro : ResolvedFile) (ip : String) (parsed : NpmParsedImport)
    (dep : NpmDependency) (f : ResolvedFile) (s' : ResolverState)
    (hcons : CacheConsistent s.cache)
    (h : resolveNpmDependency cfg fs s fro ip parsed dep = (.ok f, s')) :
    getA s'.cache f.sourceName = some f := by
  cases dep with
  | projectSentinel =>
    simp only [resolveNpmDependency, toProjectFile_eq_cachedBuild] at h
    have hsn := cachedBuild_ok_sourceName _ _ _ _ _ _ _ _ h (fun c => rfl) hcons
    rw [hsn]
    exact cachedBuild_ok_cached _ _ _ _ _ _ _ _ h
  | pkg p =>
    simp only [resolveNpmDependency, toNpmPackage_eq_cachedBuild] at h
    have hsn := cachedBuild_ok_sourceName _ _ _ _ _ _ _ _ h (fun c => rfl) hcons
    rw [hsn]
    exact cachedBuild_ok_cached _ _ _ _ _ _ _ _ h

/-! ### Master case analysis of `#resolveImportThroughNpm` -/
theorem thru_cases (cfg : ResolverConfig) (fs : Fs) (s : ResolverState)
    (fro : ResolvedFile) (ip d : String) :
    (parseNpmDirectImport d = none ∧
      resolveImportThroughNpm cfg fs s fro ip d = (.error (.invalidNpmImport d), s)) ∨
    (∃ parsed dep, parseNpmDirectImport d = some parsed ∧
      getDep s (depMapsKeyOf fro) parsed.package = some dep ∧
      resolveImportThroughNpm cfg fs s fro ip d =
        resolveNpmDependency cfg fs s fro ip parsed dep) ∨
    (∃ parsed e sE, parseNpmDirectImport d = some parsed ∧
      getDep s (depMapsKeyOf fro) parsed.package = none ∧
      isEscapeError e = false ∧
      resolveImportThroughNpm cfg fs s fro ip d = (.error e, sE) ∧
      sE.cache = s.cache ∧
      (∀ k n dd, getDep s k n = some dd → getDep sE k n = some dd)) ∨
    (∃ parsed nd s2, parseNpmDirectImport d = some parsed ∧
      getDep s (depMapsKeyOf fro) parsed.package = none ∧
      resolveImportThroughNpm cfg fs s fro ip d =
        resolveNpmDependency cfg fs s2 fro ip parsed nd ∧
      s2.cache = s.cache ∧
      getDep s2 (depMapsKeyOf fro) parsed.package = some nd ∧
      (∀ k n dd, getDep s k n = some dd → getDep s2 k n = some dd)) := by
  cases hp : parseNpmDirectImport d with
  | none =>
    left
    exact ⟨rfl, by simp [resolveImportThroughNpm, hp]⟩
  | some parsed =>
    cases hk : getA s.depMaps (depMapsKeyOf fro) with
    | some m =>
      cases hi : getA m parsed.package with
      | some dep =>
        refine Or.inr (Or.inl ⟨parsed, dep, rfl, ?_, ?_⟩)
        · simp [getDep, hk, hi]
        · simp [resolveImportThroughNpm, hp, hk, hi]
      | none =>
        cases hr : fs.resolveModule (parsed.package ++ "/package.json")
            (baseResolutionDirOf cfg fro) with
        | none =>
          refine Or.inr (Or.inr (Or.inl ⟨parsed,
            packageNotInstalledErr ip parsed.package fro, s, rfl, ?_, ?_, ?_, rfl,
            fun k n dd h => h⟩))
          · simp [getDep, hk, hi]
          · cases fro <;> rfl
          · simp [resolveImportThroughNpm, hp, hk, hi, hr]
        | some pjPath =>
          cases hj : fs.readJson pjPath with
          | none =>
            refine Or.inr (Or.inr (Or.inl ⟨parsed, .jsonReadError pjPath, s, rfl,
              ?_, rfl, ?_, rfl, fun k n dd h => h⟩))
            · simp [getDep, hk, hi]
            · simp [resolveImportThroughNpm, hp, hk, hi, hr, hj]
          | some pj =>
            refine Or.inr (Or.inr (Or.inr ⟨parsed, mkDependency cfg pjPath pj,
              ⟨s.cache, setA s.depMaps (depMapsKeyOf fro)
                (setA m parsed.package (mkDependency cfg pjPath pj))⟩,
              rfl, ?_, ?_, rfl, ?_, ?_⟩))
            · simp [getDep, hk, hi]
            · simp [resolveImportThroughNpm, hp, hk, hi, hr, hj]
            · simp [getDep, getA_setA_self]
            · intro k n dd hdd
              exact getDep_preserved_set s _ m parsed.package _ hk hi k n dd hdd
    | none =>
      cases hr : fs.resolveModule (parsed.package ++ "/package.json")
          (baseResolutionDirOf cfg fro) with
      | none =>
        refine Or.inr (Or.inr (Or.inl ⟨parsed,
          packageNotInstalledErr ip parsed.package fro,
          { s with depMaps := setA s.depMaps (depMapsKeyOf fro) [] }, rfl, ?_, ?_,
          ?_, rfl, ?_⟩))
        · simp [getDep, hk]
        · cases fro <;> rfl
        · simp [resolveImportThroughNpm, hp, hk, hr, getA_setA_self, getA]
        · intro k n dd hdd
          exact getDep_preserved_init s _ hk k n dd hdd
      | some pjPath =>
        cases hj : fs.readJson pjPath with
        | none =>
          refine Or.inr (Or.inr (Or.inl ⟨parsed, .jsonReadError pjPath,
            { s with depMaps := setA s.depMaps (depMapsKeyOf fro) [] }, rfl, ?_,
            rfl, ?_, rfl, ?_⟩))
          · simp [getDep, hk]
          · simp [resolveImportThroughNpm, hp, hk, hr, hj, getA_setA_self, getA]
          · intro k n dd hdd
            exact getDep_preserved_init s _ hk k n dd hdd
        | some pj =>
          refine Or.inr (Or.inr (Or.inr ⟨parsed, mkDependency cfg pjPath pj,
            ⟨s.cache, setA (setA s.depMaps (depMapsKeyOf fro) [])
              (depMapsKeyOf fro)
              (setA [] parsed.package (mkDependency cfg pjPath pj))⟩,
            rfl, ?_, ?_, rfl, ?_, ?_⟩))
          · simp [getDep, hk]
          · simp [resolveImportThroughNpm, hp, hk, hr, hj, getA_setA_self, getA]
          · simp [getDep, getA_setA_self]
          · intro k n dd hdd
            have h1 := getDep_preserved_init s (depMapsKeyOf fro) hk k n dd hdd
            have h2 := getDep_preserved_set
              { s with depMaps := setA s.depMaps (depMapsKeyOf fro) [] }
              (depMapsKeyOf fro) [] parsed.package (mkDependency cfg pjPath pj)
              (by simp [getA_setA_self]) rfl k n dd h1
            simpa using h2

/-! ### Derived lemmas about `#resolveImportThroughNpm` -/
theorem getDep_depMaps_eq (s' s : ResolverState) (hd : s'.depMaps = s.depMaps)
    (k : Option String) (n : String) : getDep s' k n = getDep s k n := by
  unfold getDep
  rw [hd]

theorem thru_error_cache (cfg : ResolverConfig) (fs : Fs) (s : ResolverState)
    (fro : ResolvedFile) (ip d : String) (e : ResolverError)
    (h : (resolveImportThroughNpm cfg fs s fro ip d).1 = .error e) :
    (resolveImportThroughNpm cfg fs s fro ip d).2.cache = s.cache := by
  rcases thru_cases cfg fs s fro ip d with ⟨_, he⟩ | ⟨parsed, dep, hp, hd, he⟩ |
    ⟨parsed, e', sE, hp, hg, hne, he, hcache, hpres⟩ |
    ⟨parsed, nd, s2, hp, hg, he, hcache, hg2, hpres⟩
  · rw [he]
  · rw [he] at h ⊢
    rw [npmDep_error_state cfg fs s fro ip parsed dep e h]
  · rw [he]
    exact hcache
  · rw [he] at h ⊢
    rw [npmDep_error_state cfg fs s2 fro ip parsed nd e h]
    exact hcache

theorem thru_noEscape (cfg : ResolverConfig) (fs : Fs) (s : ResolverState)
    (fro : ResolvedFile) (ip d : String) (e : ResolverError)
    (h : (resolveImportThroughNpm cfg fs s fro ip d).1 = .error e) :
    isEscapeError e = false := by
  rcases thru_cases cfg fs s fro ip d with ⟨_, he⟩ | ⟨parsed, dep, hp, hd, he⟩ |
    ⟨parsed, e', sE, hp, hg, hne, he, hcache, hpres⟩ |
    ⟨parsed, nd, s2, hp, hg, he, hcache, hg2, hpres⟩
  · rw [he] at h
    cases h
    rfl
  · rw [he] at h
    exact npmDep_noEscape cfg fs s fro ip parsed dep e h
  · rw [he] at h
    cases h
    exact hne
  · rw [he] at h
    exact npmDep_noEscape cfg fs s2 fro ip parsed nd e h

theorem thru_getDep (cfg : ResolverConfig) (fs : Fs) (s : ResolverState)
    (fro : ResolvedFile) (ip d : String) (k : Option String) (n : String)
    (dd : NpmDependency) (h0 : getDep s k n = some dd) :
    getDep (resolveImportThroughNpm cfg fs s fro ip d).2 k n = some dd := by
  rcases thru_cases cfg fs s fro ip d with ⟨_, he⟩ | ⟨parsed, dep, hp, hd, he⟩ |
    ⟨parsed, e', sE, hp, hg, hne, he, hcache, hpres⟩ |
    ⟨parsed, nd, s2, hp, hg, he, hcache, hg2, hpres⟩
  · rw [he]
    exact h0
  · rw [he]
    rw [getDep_depMaps_eq _ s (npmDep_depMaps cfg fs s fro ip parsed dep)]
    exact h0
  · rw [he]
    exact hpres k n dd h0
  · rw [he]
    rw [getDep_depMaps_eq _ s2 (npmDep_depMaps cfg fs s2 fro ip parsed nd)]
    exact hpres k n dd h0

theorem thru_idem (cfg : ResolverConfig) (fs : Fs) (s : ResolverState)
    (fro : ResolvedFile) (ip d : String) (f : ResolvedFile) (s' : ResolverState)
    (h : resolveImportThroughNpm cfg fs s fro ip d = (.ok f, s')) :
    resolveImportThroughNpm cfg fs s' fro ip d = (.ok f, s') := by
  rcases thru_cases cfg fs s fro ip d with ⟨_, he⟩ | ⟨parsed, dep, hp, hd, he⟩ |
    ⟨parsed, e', sE, hp, hg, hne, he, hcache, hpres⟩ |
    ⟨parsed, nd, s2, hp, hg, he, hcache, hg2, hpres⟩
  · rw [he] at h
    cases congrArg Prod.fst h
  · rw [he] at h
    have hidem := npmDep_idem cfg fs s fro ip parsed dep f s' h
    have hdm : s'.depMaps = s.depMaps := by
      have h2 := npmDep_depMaps cfg fs s fro ip parsed dep
      rw [h] at h2
      exact h2
    have hd' : getDep s' (depMapsKeyOf fro) parsed.package = some dep := by
      rw [getDep_depMaps_eq s' s hdm]
      exact hd
    rcases thru_cases cfg fs s' fro ip d with ⟨hpn, _⟩ |
      ⟨parsed2, dep2, hp2, hd2, he2⟩ | ⟨parsed3, e3, sE3, hp3, hg3, _, _, _, _⟩ |
      ⟨parsed4, nd4, s24, hp4, hg4, _, _, _, _⟩
    · rw [hp] at hpn
      cases hpn
    · rw [hp] at hp2
      cases hp2
      rw [hd'] at hd2
      cases hd2
      rw [he2]
      exact hidem
    · rw [hp] at hp3
      cases hp3
      rw [hd'] at hg3
      cases hg3
    · rw [hp] at hp4
      cases hp4
      rw [hd'] at hg4
      cases hg4
  · rw [he] at h
    cases congrArg Prod.fst h
  · rw [he] at h
    have hidem := npmDep_idem cfg fs s2 fro ip parsed nd f s' h
    have hdm : s'.depMaps = s2.depMaps := by
      have h2 := npmDep_depMaps cfg fs s2 fro ip parsed nd
      rw [h] at h2
      exact h2
    have hd' : getDep s' (depMapsKeyOf fro) parsed.package = some nd := by
      rw [getDep_depMaps_eq s' s2 hdm]
      exact hg2
    rcases thru_cases cfg fs s' fro ip d with ⟨hpn, _⟩ |
      ⟨parsed2, dep2, hp2, hd2, he2⟩ | ⟨parsed3, e3, sE3, hp3, hg3, _, _, _, _⟩ |
      ⟨parsed4, nd4, s24, hp4, hg4, _, _, _, _⟩
    · rw [hp] at hpn
      cases hpn
    · rw [hp] at hp2
      cases hp2
      rw [hd'] at hd2
      cases hd2
      rw [he2]
      exact hidem
    · rw [hp] at hp3
      cases hp3
      rw [hd'] at hg3
      cases hg3
    · rw [hp] at hp4
      cases hp4
      rw [hd'] at hg4
      cases hg4

theorem thru_ok_cached (cfg : ResolverConfig) (fs : Fs) (s : ResolverState)
    (fro : ResolvedFile) (ip d : String) (f : ResolvedFile) (s' : ResolverState)
    (hcons : CacheConsistent s.cache)
    (h : resolveImportThroughNpm cfg fs s fro ip d = (.ok f, s')) :
    getA s'.cache f.sourceName = some f := by
  rcases thru_cases cfg fs s fro ip d with ⟨_, he⟩ | ⟨parsed, dep, hp, hd, he⟩ |
    ⟨parsed, e', sE, hp, hg, hne, he, hcache, hpres⟩ |
    ⟨parsed, nd, s2, hp, hg, he, hcache, hg2, hpres⟩
  · rw [he] at h
    cases congrArg Prod.fst h
  · rw [he] at h
    exact npmDep_ok_cached cfg fs s fro ip parsed dep f s' hcons h
  · rw [he] at h
    cases congrArg Prod.fst h
  · rw [he] at h
    have hcons2 : CacheConsistent s2.cache := by
      rw [hcache]
      exact hcons
    exact npmDep_ok_cached cfg fs s2 fro ip parsed nd f s' hcons2 h

theorem fromProject_cases2 (cfg : ResolverConfig) (fs : Fs) (fro : ResolvedFile)
    (ip d : String) :
    (∃ r pkg, ∀ s, resolveImportFromProjectFile cfg fs s fro ip d =
      resolveImportToNpmPackageRemappedByUser fs s fro ip
        (applyValidRemapping d r) pkg) ∨
    (∃ p, ∀ s, resolveImportFromProjectFile cfg fs s fro ip d =
      resolveImportToProjectFile cfg fs s fro ip p) ∨
    (∃ raw rem, ∀ s, resolveImportFromProjectFile cfg fs s fro ip d =
      ((.error (.remapNotLocal raw ip rem), s) : ResolveResult)) ∨
    (∀ s, resolveImportFromProjectFile cfg fs s fro ip d =
      resolveImportThroughNpm cfg fs s fro ip d) := by
  cases hs : selectBestRemapping fro.sourceName d cfg.userRemappings with
  | some r =>
    cases ht : r.targetNpmPackage with
    | some pkg =>
      exact Or.inl ⟨r, pkg,
        fun s => by simp [resolveImportFromProjectFile, hs, ht]⟩
    | none =>
      cases hl : isDirectImportLocal fs cfg.projectRoot (applyValidRemapping d r) with
      | true =>
        exact Or.inr (Or.inl ⟨applyValidRemapping d r,
          fun s => by simp [resolveImportFromProjectFile, hs, ht, hl]⟩)
      | false =>
        exact Or.inr (Or.inr (Or.inl ⟨r.rawFormat, applyValidRemapping d r,
          fun s => by simp [resolveImportFromProjectFile, hs, ht, hl]⟩))
  | none =>
    cases hl : isDirectImportLocal fs cfg.projectRoot d with
    | true =>
      exact Or.inr (Or.inl ⟨d,
        fun s => by simp [resolveImportFromProjectFile, hs, hl]⟩)
    | false =>
      exact Or.inr (Or.inr (Or.inr
        (fun s => by simp [resolveImportFromProjectFile, hs, hl])))

theorem fromNpm_cases2 (cfg : ResolverConfig) (fs : Fs) (fro : ResolvedFile)
    (pkg : NpmPackage) (ip d : String) :
    (∃ dd, ∀ s, resolveImportFromNpmPackageFile cfg fs s fro pkg ip d =
      resolveLocalImportFromNpmPackage fs s fro ip dd pkg) ∨
    (∀ s, resolveImportFromNpmPackageFile cfg fs s fro pkg ip d =
      resolveImportThroughNpm cfg fs s fro ip d) := by
  cases h1 : strStartsWith d pkg.rootSourceName with
  | true =>
    exact Or.inl ⟨d, fun s => by simp [resolveImportFromNpmPackageFile, h1]⟩
  | false =>
    cases h2 : isDirectImportLocal fs pkg.rootPath d with
    | true =>
      exact Or.inl ⟨pkg.rootSourceName ++ d,
        fun s => by simp [resolveImportFromNpmPackageFile, h1, h2]⟩
    | false =>
      exact Or.inr (fun s => by simp [resolveImportFromNpmPackageFile, h1, h2])

theorem resolveImport_cases2 (cfg : ResolverConfig) (fs : Fs) (fro : ResolvedFile)
    (ip : String) :
    (∃ e, isEscapeError e = true ∧
      (∀ s, resolveImport cfg fs s fro ip = ((.error e, s) : ResolveResult)) ∧
      ((∃ sn p c, fro = .projectFile sn p c ∧
          strStartsWith (pathJoin (dirname sn) ip) "../" = true ∧
          e = .importOutsideProject ip p) ∨
       (∃ sn p c pkg, fro = .npmPackageFile sn p c pkg ∧
          strStartsWith (pathJoin (dirname sn) ip) pkg.rootSourceName = false ∧
          e = .importOutsidePackage ip p))) ∨
    (∀ s, resolveImport cfg fs s fro ip =
      resolveImportFromProjectFile cfg fs s fro ip (directImportOf fro ip)) ∨
    (∃ pkg, ∀ s, resolveImport cfg fs s fro ip =
      resolveImportFromNpmPackageFile cfg fs s fro pkg ip (directImportOf fro ip)) := by
  cases fro with
  | projectFile sn p c =>
    cases hrel : (strStartsWith ip "./" || strStartsWith ip "../") with
    | true =>
      cases hesc : strStartsWith (pathJoin (dirname sn) ip) "../" with
      | true =>
        refine Or.inl ⟨.importOutsideProject ip p, rfl, fun s => ?_,
          Or.inl ⟨sn, p, c, rfl, hesc, rfl⟩⟩
        simp [resolveImport, ResolvedFile.sourceName, hrel, hesc]
      | false =>
        refine Or.inr (Or.inl (fun s => ?_))
        simp [resolveImport, directImportOf, ResolvedFile.sourceName, hrel, hesc]
    | false =>
      refine Or.inr (Or.inl (fun s => ?_))
      simp [resolveImport, directImportOf, ResolvedFile.sourceName, hrel]
  | npmPackageFile sn p c pkg =>
    cases hrel : (strStartsWith ip "./" || strStartsWith ip "../") with
    | true =>
      cases hesc : strStartsWith (pathJoin (dirname sn) ip) pkg.rootSourceName with
      | true =>
        refine Or.inr (Or.inr ⟨pkg, fun s => ?_⟩)
        simp [resolveImport, directImportOf, ResolvedFile.sourceName, hrel, hesc]
      | false =>
        refine Or.inl ⟨.importOutsidePackage ip p, rfl, fun s => ?_,
          Or.inr ⟨sn, p, c, pkg, rfl, hesc, rfl⟩⟩
        simp [resolveImport, ResolvedFile.sourceName, hrel, hesc]
    | false =>
      refine Or.inr (Or.inr ⟨pkg, fun s => ?_⟩)
      simp [resolveImport, directImportOf, ResolvedFile.sourceName, hrel]

theorem resolveProjectFile_cases (cfg : ResolverConfig) (fs : Fs)
    (s : ResolverState) (abs : String) :
    (∃ f, getA s.cache (pathRelative cfg.projectRoot abs) = some f ∧
      resolveProjectFile cfg fs s abs = (.ok f, s)) ∨
    (∃ e, resolveProjectFile cfg fs s abs = (.error e, s)) ∨
    (∃ content, resolveProjectFile cfg fs s abs =
      (.ok (.projectFile (pathRelative cfg.projectRoot abs) abs content),
       ⟨setA s.cache (pathRelative cfg.projectRoot abs)
          (.projectFile (pathRelative cfg.projectRoot abs) abs content),
        s.depMaps⟩)) := by
  cases hc : getA s.cache (pathRelative cfg.projectRoot abs) with
  | some f =>
    refine Or.inl ⟨f, rfl, ?_⟩
    simp [resolveProjectFile, hc]
  | none =>
    cases hw : strStartsWith abs cfg.projectRoot with
    | false =>
      refine Or.inr (Or.inl ⟨.notWithinProject abs, ?_⟩)
      simp [resolveProjectFile, hc, hw]
    | true =>
      cases htc : fs.trueCase cfg.projectRoot (pathRelative cfg.projectRoot abs) with
      | none =>
        refine Or.inr (Or.inl ⟨.projectFileMissing abs, ?_⟩)
        simp [resolveProjectFile, hc, hw, htc]
      | some tc =>
        by_cases heq : tc = pathRelative cfg.projectRoot abs
        · cases hr : fs.readUtf8 abs with
          | none =>
            refine Or.inr (Or.inl ⟨.readError abs, ?_⟩)
            simp [resolveProjectFile, hc, hw, htc, heq, hr]
          | some content =>
            refine Or.inr (Or.inr ⟨content, ?_⟩)
            simp [resolveProjectFile, hc, hw, htc, heq, hr]
        · refine Or.inr (Or.inl ⟨.invalidCasingProjectFile abs
            (pathJoin cfg.projectRoot tc), ?_⟩)
          simp [resolveProjectFile, hc, hw, htc, heq]

/-! ### Composite lemmas about `#resolveImportFromProjectFile` -/
theorem fp_error_cache (cfg : ResolverConfig) (fs : Fs) (s : ResolverState)
    (fro : ResolvedFile) (ip d : String) (e : ResolverError)
    (h : (resolveImportFromProjectFile cfg fs s fro ip d).1 = .error e) :
    (resolveImportFromProjectFile cfg fs s fro ip d).2.cache = s.cache := by
  rcases fromProject_cases2 cfg fs fro ip d with ⟨r, pkg, hA⟩ | ⟨p, hB⟩ |
    ⟨raw, rem, hC⟩ | hD
  · rw [hA s, remappedByUser_eq_cachedBuild] at h ⊢
    rw [cachedBuild_error_state _ _ _ _ _ _ _ h]
  · rw [hB s, toProjectFile_eq_cachedBuild] at h ⊢
    rw [cachedBuild_error_state _ _ _ _ _ _ _ h]
  · rw [hC s]
  · rw [hD s] at h ⊢
    exact thru_error_cache cfg fs s fro ip d e h

theorem fp_noEscape (cfg : ResolverConfig) (fs : Fs) (s : ResolverState)
    (fro : ResolvedFile) (ip d : String) (e : ResolverError)
    (h : (resolveImportFromProjectFile cfg fs s fro ip d).1 = .error e) :
    isEscapeError e = false := by
  rcases fromProject_cases2 cfg fs fro ip d with ⟨r, pkg, hA⟩ | ⟨p, hB⟩ |
    ⟨raw, rem, hC⟩ | hD
  · rw [hA s, remappedByUser_eq_cachedBuild] at h
    rcases cachedBuild_error_kind _ _ _ _ _ _ _ h with he | hv
    · rw [he]
      rfl
    · exact validate_not_escape _ _ _ _ _ _ hv
  · rw [hB s, toProjectFile_eq_cachedBuild] at h
    rcases cachedBuild_error_kind _ _ _ _ _ _ _ h with he | hv
    · rw [he]
      rfl
    · exact validate_not_escape _ _ _ _ _ _ hv
  · rw [hC s] at h
    cases h
    rfl
  · rw [hD s] at h
    exact thru_noEscape cfg fs s fro ip d e h

theorem fp_getDep (cfg : ResolverConfig) (fs : Fs) (s : ResolverState)
    (fro : ResolvedFile) (ip d : String) (k : Option String) (n : String)
    (dd : NpmDependency) (h0 : getDep s k n = some dd) :
    getDep (resolveImportFromProjectFile cfg fs s fro ip d).2 k n = some dd := by
  rcases fromProject_cases2 cfg fs fro ip d with ⟨r, pkg, hA⟩ | ⟨p, hB⟩ |
    ⟨raw, rem, hC⟩ | hD
  · rw [hA s, remappedByUser_eq_cachedBuild]
    rw [getDep_depMaps_eq _ s (cachedBuild_depMaps _ _ _ _ _ _)]
    exact h0
  · rw [hB s, toProjectFile_eq_cachedBuild]
    rw [getDep_depMaps_eq _ s (cachedBuild_depMaps _ _ _ _ _ _)]
    exact h0
  · rw [hC s]
    exact h0
  · rw [hD s]
    exact thru_getDep cfg fs s fro ip d k n dd h0

theorem fp_idem (cfg : ResolverConfig) (fs : Fs) (s : ResolverState)
    (fro : ResolvedFile) (ip d : String) (f : ResolvedFile) (s' : ResolverState)
    (h : resolveImportFromProjectFile cfg fs s fro ip d = (.ok f, s')) :
    resolveImportFromProjectFile cfg fs s' fro ip d = (.ok f, s') := by
  rcases fromProject_cases2 cfg fs fro ip d with ⟨r, pkg, hA⟩ | ⟨p, hB⟩ |
    ⟨raw, rem, hC⟩ | hD
  · rw [hA s, remappedByUser_eq_cachedBuild] at h
    rw [hA s', remappedByUser_eq_cachedBuild]
    exact cachedBuild_idem _ _ _ _ _ _ _ _ h _ _ _
  · rw [hB s, toProjectFile_eq_cachedBuild] at h
    rw [hB s', toProjectFile_eq_cachedBuild]
    exact cachedBuild_idem _ _ _ _ _ _ _ _ h _ _ _
  · rw [hC s] at h
    cases congrArg Prod.fst h
  · rw [hD s] at h
    rw [hD s']
    exact thru_idem cfg fs s fro ip d f s' h

theorem fp_ok_cached (cfg : ResolverConfig) (fs : Fs) (s : ResolverState)
    (fro : ResolvedFile) (ip d : String) (f : ResolvedFile) (s' : ResolverState)
    (hcons : CacheConsistent s.cache)
    (h : resolveImportFromProjectFile cfg fs s fro ip d = (.ok f, s')) :
    getA s'.cache f.sourceName = some f := by
  rcases fromProject_cases2 cfg fs fro ip d with ⟨r, pkg, hA⟩ | ⟨p, hB⟩ |
    ⟨raw, rem, hC⟩ | hD
  · rw [hA s, remappedByUser_eq_cachedBuild] at h
    have hsn := cachedBuild_ok_sourceName _ _ _ _ _ _ _ _ h (fun c => rfl) hcons
    rw [hsn]
    exact cachedBuild_ok_cached _ _ _ _ _ _ _ _ h
  · rw [hB s, toProjectFile_eq_cachedBuild] at h
    have hsn := cachedBuild_ok_sourceName _ _ _ _ _ _ _ _ h (fun c => rfl) hcons
    rw [hsn]
    exact cachedBuild_ok_cached _ _ _ _ _ _ _ _ h
  · rw [hC s] at h
    cases congrArg Prod.fst h
  · rw [hD s] at h
    exact thru_ok_cached cfg fs s fro ip d f s' hcons h

/-! ### Composite lemmas about `#resolveImportFromNpmPackageFile` -/
theorem fn_error_cache (cfg : ResolverConfig) (fs : Fs) (s : ResolverState)
    (fro : ResolvedFile) (pkg : NpmPackage) (ip d : String) (e : ResolverError)
    (h : (resolveImportFromNpmPackageFile cfg fs s fro pkg ip d).1 = .error e) :
    (resolveImportFromNpmPackageFile cfg fs s fro pkg ip d).2.cache = s.cache := by
  rcases fromNpm_cases2 cfg fs fro pkg ip d with ⟨dd, hA⟩ | hB
  · rw [hA s, localFromNpm_eq_cachedBuild] at h ⊢
    rw [cachedBuild_error_state _ _ _ _ _ _ _ h]
  · rw [hB s] at h ⊢
    exact thru_error_cache cfg fs s fro ip d e h

theorem fn_noEscape (cfg : ResolverConfig) (fs : Fs) (s : ResolverState)
    (fro : ResolvedFile) (pkg : NpmPackage) (ip d : String) (e : ResolverError)
    (h : (resolveImportFromNpmPackageFile cfg fs s fro pkg ip d).1 = .error e) :
    isEscapeError e = false := by
  rcases fromNpm_cases2 cfg fs fro pkg ip d with ⟨dd, hA⟩ | hB
  · rw [hA s, localFromNpm_eq_cachedBuild] at h
    rcases cachedBuild_error_kind _ _ _ _ _ _ _ h with he | hv
    · rw [he]
      rfl
    · exact validate_not_escape _ _ _ _ _ _ hv
  · rw [hB s] at h
    exact thru_noEscape cfg fs s fro ip d e h

theorem fn_getDep (cfg : ResolverConfig) (fs : Fs) (s : ResolverState)
    (fro : ResolvedFile) (pkg : NpmPackage) (ip d : String) (k : Option String)
    (n : String) (dd0 : NpmDependency) (h0 : getDep s k n = some dd0) :
    getDep (resolveImportFromNpmPackageFile cfg fs s fro pkg ip d).2 k n =
      some dd0 := by
  rcases fromNpm_cases2 cfg fs fro pkg ip d with ⟨dd, hA⟩ | hB
  · rw [hA s, localFromNpm_eq_cachedBuild]
    rw [getDep_depMaps_eq _ s (cachedBuild_depMaps _ _ _ _ _ _)]
    exact h0
  · rw [hB s]
    exact thru_getDep cfg fs s fro ip d k n dd0 h0

theorem fn_idem (cfg : ResolverConfig) (fs : Fs) (s : ResolverState)
    (fro : ResolvedFile) (pkg : NpmPackage) (ip d : String) (f : ResolvedFile)
    (s' : ResolverState)
    (h : resolveImportFromNpmPackageFile cfg fs s fro pkg ip d = (.ok f, s')) :
    resolveImportFromNpmPackageFile cfg fs s' fro pkg ip d = (.ok f, s') := by
  rcases fromNpm_cases2 cfg fs fro pkg ip d with ⟨dd, hA⟩ | hB
  · rw [hA s, localFromNpm_eq_cachedBuild] at h
    rw [hA s', localFromNpm_eq_cachedBuild]
    exact cachedBuild_idem _ _ _ _ _ _ _ _ h _ _ _
  · rw [hB s] at h
    rw [hB s']
    exact thru_idem cfg fs s fro ip d f s' h

theorem fn_ok_cached (cfg : ResolverConfig) (fs : Fs) (s : ResolverState)
    (fro : ResolvedFile) (pkg : NpmPackage) (ip d : String) (f : ResolvedFile)
    (s' : ResolverState) (hcons : CacheConsistent s.cache)
    (h : resolveImportFromNpmPackageFile cfg fs s fro pkg ip d = (.ok f, s')) :
    getA s'.cache f.sourceName = some f := by
  rcases fromNpm_cases2 cfg fs fro pkg ip d with ⟨dd, hA⟩ | hB
  · rw [hA s, localFromNpm_eq_cachedBuild] at h
    have hsn := cachedBuild_ok_sourceName _ _ _ _ _ _ _ _ h (fun c => rfl) hcons
    rw [hsn]
    exact cachedBuild_ok_cached _ _ _ _ _ _ _ _ h
  · rw [hB s] at h
    exact thru_ok_cached cfg fs s fro ip d f s' hcons h

/-! ### Composite lemmas about `resolveImport` -/
theorem ri_error_cache (cfg : ResolverConfig) (fs : Fs) (s : ResolverState)
    (fro : ResolvedFile) (ip : String) (e : ResolverError)
    (h : (resolveImport cfg fs s fro ip).1 = .error e) :
    (resolveImport cfg fs s fro ip).2.cache = s.cache := by
  rcases resolveImport_cases2 cfg fs fro ip with ⟨e0, _, hE, _⟩ | hP | ⟨pkg, hN⟩
  · rw [hE s]
  · rw [hP s] at h ⊢
    exact fp_error_cache cfg fs s fro ip _ e h
  · rw [hN s] at h ⊢
    exact fn_error_cache cfg fs s fro pkg ip _ e h

theorem ri_getDep (cfg : ResolverConfig) (fs : Fs) (s : ResolverState)
    (fro : ResolvedFile) (ip : String) (k : Option String) (n : String)
    (dd : NpmDependency) (h0 : getDep s k n = some dd) :
    getDep (resolveImport cfg fs s fro ip).2 k n = some dd := by
  rcases resolveImport_cases2 cfg fs fro ip with ⟨e0, _, hE, _⟩ | hP | ⟨pkg, hN⟩
  · rw [hE s]
    exact h0
  · rw [hP s]
    exact fp_getDep cfg fs s fro ip _ k n dd h0
  · rw [hN s]
    exact fn_getDep cfg fs s fro pkg ip _ k n dd h0

theorem ri_idem (cfg : ResolverConfig) (fs : Fs) (s : ResolverState)
    (fro : ResolvedFile) (ip : String) (f : ResolvedFile) (s' : ResolverState)
    (h : resolveImport cfg fs s fro ip = (.ok f, s')) :
    resolveImport cfg fs s' fro ip = (.ok f, s') := by
  rcases resolveImport_cases2 cfg fs fro ip with ⟨e0, _, hE, _⟩ | hP | ⟨pkg, hN⟩
  · rw [hE s] at h
    cases congrArg Prod.fst h
  · rw [hP s] at h
    rw [hP s']
    exact fp_idem cfg fs s fro ip _ f s' h
  · rw [hN s] at h
    rw [hN s']
    exact fn_idem cfg fs s fro pkg ip _ f s' h

theorem ri_ok_cached (cfg : ResolverConfig) (fs : Fs) (s : ResolverState)
    (fro : ResolvedFile) (ip : String) (f : ResolvedFile) (s' : ResolverState)
    (hcons : CacheConsistent s.cache)
    (h : resolveImport cfg fs s fro ip = (.ok f, s')) :
    getA s'.cache f.sourceName = some f := by
  rcases resolveImport_cases2 cfg fs fro ip with ⟨e0, _, hE, _⟩ | hP | ⟨pkg, hN⟩
  · rw [hE s] at h
    cases congrArg Prod.fst h
  · rw [hP s] at h
    exact fp_ok_cached cfg fs s fro ip _ f s' hcons h
  · rw [hN s] at h
    exact fn_ok_cached cfg fs s fro pkg ip _ f s' hcons h

/-- C2 (amended): when `resolveImport` or `resolveProjectFile` fails, the
source-name cache is unchanged (and `resolveProjectFile` leaves the whole
state unchanged); the dependency map, however, may gain entries — technique
4 records the located package before validating the imported file (see the
counterexample). -/
theorem c2_failed_resolution_preserves_cache :
    (∀ (cfg : ResolverConfig) (fs : Fs) (s : ResolverState) (fro : ResolvedFile)
        (ip : String) (e : ResolverError) (s' : ResolverState),
      resolveImport cfg fs s fro ip = (.error e, s') → s'.cache = s.cache) ∧
    (∀ (cfg : ResolverConfig) (fs : Fs) (s : ResolverState) (abs : String)
        (e : ResolverError) (s' : ResolverState),
      resolveProjectFile cfg fs s abs = (.error e, s') → s' = s) := by
  constructor
  · intro cfg fs s fro ip e s' h
    have h1 : (resolveImport cfg fs s fro ip).1 = .error e := by rw [h]
    have h2 := ri_error_cache cfg fs s fro ip e h1
    rw [h] at h2
    exact h2
  · intro cfg fs s abs e s' h
    rcases resolveProjectFile_cases cfg fs s abs with ⟨f, _, he⟩ | ⟨e2, he⟩ |
      ⟨c, he⟩
    · rw [he] at h
      cases congrArg Prod.fst h
    · rw [he] at h
      exact (congrArg Prod.snd h).symm
    · rw [he] at h
      cases congrArg Prod.fst h

/-- C2 witness: the failing technique-4 run of the counterexample leaves
the cache of the initial state unchanged. -/
theorem c2_failed_resolution_preserves_cache_witness :
    (⟨[], [(none, [("dep", NpmDependency.pkg c2pkg)])]⟩ : ResolverState).cache =
      initialState.cache :=
  c2_failed_resolution_preserves_cache.1 c2cfg c2fs initialState c2from
    "dep/Missing.sol" (.importNotFound "dep/Missing.sol" "/p/A.sol")
    ⟨[], [(none, [("dep", NpmDependency.pkg c2pkg)])]⟩ rfl

/-- C8: a dependency-map slot is never overwritten or removed — once
`(origin, imported package name)` maps to a dependency, it still maps to
the same dependency after any further `resolveImport` call, so later
  imports of that package name from the same origin resolve against the
stored dependency. -/
theorem c8_dependency_map_slot_write_once :
    ∀ (cfg : ResolverConfig) (fs : Fs) (s : ResolverState) (fro : ResolvedFile)
      (ip : String) (origin : Option String) (pkgName : String)
      (dep : NpmDependency),
      getDep s origin pkgName = some dep →
      getDep (resolveImport cfg fs s fro ip).2 origin pkgName = some dep :=
  fun cfg fs s fro ip origin pkgName dep h0 =>
    ri_getDep cfg fs s fro ip origin pkgName dep h0

/-- C8 witness: a later (failing) `resolveImport` of a different package
leaves the recorded `(sentinel, "dep")` dependency intact. -/
theorem c8_dependency_map_slot_write_once_witness :
    getDep (resolveImport c8cfg c8fs c8state c8from "other/X.sol").2 none "dep" =
      some (.pkg c8pkg) :=
  c8_dependency_map_slot_write_once c8cfg c8fs c8state c8from "other/X.sol"
    none "dep" (.pkg c8pkg) rfl

/-- C9: `resolveImport` is deterministic — when a call on a consistent
cache succeeds with file `f` and state `s'`, repeating the identical call
(no filesystem change) returns the structurally equal `f` with the same
state, and `f` is the cached value stored under its computed source name. -/
theorem c9_resolveImport_deterministic :
    ∀ (cfg : ResolverConfig) (fs : Fs) (s : ResolverState) (fro : ResolvedFile)
      (ip : String) (f : ResolvedFile) (s' : ResolverState),
      CacheConsistent s.cache →
      resolveImport cfg fs s fro ip = (.ok f, s') →
      resolveImport cfg fs s' fro ip = (.ok f, s') ∧
        getA s'.cache f.sourceName = some f :=
  fun cfg fs s fro ip f s' hcons h =>
    ⟨ri_idem cfg fs s fro ip f s' h, ri_ok_cached cfg fs s fro ip f s' hcons h⟩

/-- C9 witness: repeating the successful `./B.sol` resolution returns the
same file and state, and the file sits in the cache under its source name. -/
theorem c9_resolveImport_deterministic_witness :
    resolveImport c9cfg c9fs
        ⟨[("contracts/B.sol", c9file)], [(none, [])]⟩ c9from "./B.sol" =
      (.ok c9file, ⟨[("contracts/B.sol", c9file)], [(none, [])]⟩) ∧
    getA (⟨[("contracts/B.sol", c9file)], [(none, [])]⟩ : ResolverState).cache
        c9file.sourceName = some c9file :=
  c9_resolveImport_deterministic c9cfg c9fs initialState c9from "./B.sol" c9file
    ⟨[("contracts/B.sol", c9file)], [(none, [])]⟩
    (fun k f h => Option.noConfusion h) rfl

/-- C6: for a `./`/`../` import, after joining with the importer's
directory: a project-file importer whose joined direct import begins with
`../` fails with the import-outside-project error; a package-file importer
whose joined direct import does not begin with the package root source
name fails with the import-outside-package error; and in every other
relative-import case no escape error is raised (any escape error implies
one of the two conditions). -/
theorem c6_relative_import_escape_checks :
    ∀ (cfg : ResolverConfig) (fs : Fs) (s : ResolverState) (fro : ResolvedFile)
      (ip : String),
      (strStartsWith ip "./" || strStartsWith ip "../") = true →
      (∀ sn p c, fro = .projectFile sn p c →
        strStartsWith (pathJoin (dirname sn) ip) "../" = true →
        resolveImport cfg fs s fro ip =
          (.error (.importOutsideProject ip p), s)) ∧
      (∀ sn p c pkg, fro = .npmPackageFile sn p c pkg →
        strStartsWith (pathJoin (dirname sn) ip) pkg.rootSourceName = false →
        resolveImport cfg fs s fro ip =
          (.error (.importOutsidePackage ip p), s)) ∧
      (∀ e, (resolveImport cfg fs s fro ip).1 = .error e →
        isEscapeError e = true →
        ((∃ sn p c, fro = .projectFile sn p c ∧
            strStartsWith (pathJoin (dirname sn) ip) "../" = true) ∨
         (∃ sn p c pkg, fro = .npmPackageFile sn p c pkg ∧
            strStartsWith (pathJoin (dirname sn) ip) pkg.rootSourceName =
              false))) := by
  intro cfg fs s fro ip hrel
  refine ⟨?_, ?_, ?_⟩
  · intro sn p c hfro hesc
    subst hfro
    simp [resolveImport, ResolvedFile.sourceName, hrel, hesc]
  · intro sn p c pkg hfro hesc
    subst hfro
    simp [resolveImport, ResolvedFile.sourceName, hrel, hesc]
  · intro e he hee
    rcases resolveImport_cases2 cfg fs fro ip with ⟨e0, he0, hE, hcond⟩ | hP |
      ⟨pkg, hN⟩
    · rw [hE s] at he
      cases he
      rcases hcond with ⟨sn, p, c, hfro, hesc, _⟩ | ⟨sn, p, c, pkg, hfro, hesc, _⟩
      · exact Or.inl ⟨sn, p, c, hfro, hesc⟩
      · exact Or.inr ⟨sn, p, c, pkg, hfro, hesc⟩
    · rw [hP s] at he
      rw [fp_noEscape cfg fs s fro ip _ e he] at hee
      cases hee
    · rw [hN s] at he
      rw [fn_noEscape cfg fs s fro pkg ip _ e he] at hee
      cases hee

/-- C6 witness: a `../X.sol` import from a root-level project file escapes
the project; a `../../Out.sol` import from a package file escapes the
package; and the escape error of the first run indeed comes with the
escape condition. -/
theorem c6_relative_import_escape_checks_witness :
    resolveImport c6cfg c6fs initialState (.projectFile "A.sol" "/p/A.sol" "")
        "../X.sol" =
      (.error (.importOutsideProject "../X.sol" "/p/A.sol"), initialState) ∧
    resolveImport c6cfg c6fs initialState
        (.npmPackageFile "npm/dep@1.2.3/A.sol" "/d/A.sol" "" c6pkg)
        "../../Out.sol" =
      (.error (.importOutsidePackage "../../Out.sol" "/d/A.sol"), initialState) ∧
    ((∃ sn p c, (ResolvedFile.projectFile "A.sol" "/p/A.sol" "") =
        .projectFile sn p c ∧
        strStartsWith (pathJoin (dirname sn) "../X.sol") "../" = true) ∨
     (∃ sn p c pkg, (ResolvedFile.projectFile "A.sol" "/p/A.sol" "") =
        .npmPackageFile sn p c pkg ∧
        strStartsWith (pathJoin (dirname sn) "../X.sol") pkg.rootSourceName =
          false)) :=
  ⟨(c6_relative_import_escape_checks c6cfg c6fs initialState
      (.projectFile "A.sol" "/p/A.sol" "") "../X.sol" rfl).1
      "A.sol" "/p/A.sol" "" rfl rfl,
   (c6_relative_import_escape_checks c6cfg c6fs initialState
      (.npmPackageFile "npm/dep@1.2.3/A.sol" "/d/A.sol" "" c6pkg)
      "../../Out.sol" rfl).2.1
      "npm/dep@1.2.3/A.sol" "/d/A.sol" "" c6pkg rfl (by decide),
   (c6_relative_import_escape_checks c6cfg c6fs initialState
      (.projectFile "A.sol" "/p/A.sol" "") "../X.sol" rfl).2.2
      (.importOutsideProject "../X.sol" "/p/A.sol") rfl rfl⟩
